import Mathlib

/-!
Shallow embedding of the `solana-paper-grid` repository for specification
checking.  Prices, balances and quantities are modelled as exact rationals
(`ℚ`); timestamps as integers (milliseconds).  Three program variants are
embedded:

* namespace `Dark`  — the percent-grid "dark ladder" engine of
  `src/runPaper.js` (second document in the file, lines 754-1598):
  `buildLadder`, `placeBuyAtPrice`, `placeSellAtPrice`, `runMicroSeedOnce`,
  `simulateFills`, `portfolioValueUsd`, `saveState`/`loadState`, `tick`.
* namespace `V1`    — the auto-re-anchor variant of `src/runPaper.js`
  (first document, lines 1-613): `pctDiff`, `shouldReanchor`,
  `saveState`/`loadState`.
* namespace `FS`    — the fixed-step-grid variant of
  `src/unnamed/part_001` (lines 1-707): `buildLevels`, `computeStats`,
  `canPlaceAnotherBuy`, `tryExecuteBuys`, `tryExecuteSells`.

Nondeterministic inputs of the source (wall-clock `Date.now()`, the fetched
market price and its source label) are passed as explicit parameters.  The
random suffix of the fixed-step variant's trade ids is irrelevant to every
claim and is not modelled; the rest of each trade record is.
-/

/-- Order side, shared by all variants. -/
inductive Side where
  | BUY
  | SELL
deriving DecidableEq, Repr

/-- Association-list lookup: first binding of the key, mirroring a JS object
(whose keys are unique). -/
def lookupA {α β : Type} [DecidableEq α] : List (α × β) → α → Option β
  | [], _ => none
  | (k, v) :: rest, a => if k = a then some v else lookupA rest a

/-- Association-list lookup with a default, mirroring `obj[k] || dflt`. -/
def lookupD {α β : Type} [DecidableEq α] (l : List (α × β)) (a : α) (dflt : β) : β :=
  (lookupA l a).getD dflt

/-- Association-list update `obj[k] = v`: replaces the existing binding, or
appends a new binding at the end (JS object insertion order). -/
def setA {α β : Type} [DecidableEq α] : List (α × β) → α → β → List (α × β)
  | [], a, b => [(a, b)]
  | (k, v) :: rest, a, b => if k = a then (k, b) :: rest else (k, v) :: setA rest a b

/-- Association-list removal `delete obj[k]` (keys are unique in a JS object,
so at most one binding is removed). -/
def eraseA {α β : Type} [DecidableEq α] : List (α × β) → α → List (α × β)
  | [], _ => []
  | (k, v) :: rest, a => if k = a then rest else (k, v) :: eraseA rest a

/-- Insert into a price-descending list, modelling one step of the JS
comparator `(x, y) => key y - key x`. -/
def insertDescBy {α : Type} (key : α → ℚ) (x : α) : List α → List α
  | [] => [x]
  | y :: ys => if key y ≤ key x then x :: y :: ys else y :: insertDescBy key x ys

/-- Sort descending by a rational key, modelling `.sort((x, y) => key y - key x)`. -/
def sortDescBy {α : Type} (key : α → ℚ) : List α → List α
  | [] => []
  | x :: xs => insertDescBy key x (sortDescBy key xs)

/-- Insert into a price-ascending list, modelling one step of the JS
comparator `(x, y) => key x - key y`. -/
def insertAscBy {α : Type} (key : α → ℚ) (x : α) : List α → List α
  | [] => [x]
  | y :: ys => if key x ≤ key y then x :: y :: ys else y :: insertAscBy key x ys

/-- Sort ascending by a rational key, modelling `.sort((x, y) => key x - key y)`. -/
def sortAscBy {α : Type} (key : α → ℚ) : List α → List α
  | [] => []
  | x :: xs => insertAscBy key x (sortAscBy key xs)

/-- `Math.min(...l)` on a nonempty list; `none` on the empty list. -/
def listMin? : List ℚ → Option ℚ
  | [] => none
  | x :: xs =>
    match listMin? xs with
    | none => some x
    | some m => some (min x m)

/-- The list `[n, n-1, ..., 1]`, modelling `for (let i = n; i >= 1; i--)`. -/
def downFrom : ℕ → List ℕ
  | 0 => []
  | Nat.succ k => Nat.succ k :: downFrom k

/-- JS `Math.round(x * 100) / 100` (round half towards +∞), used by the
fixed-step variant's `round2`. -/
def round2 (x : ℚ) : ℚ := (⌊x * 100 + 1 / 2⌋ : ℚ) / 100

namespace Dark

/- ===== CONFIG constants of the dark-ladder variant ===== -/

def BUY_PACKETS : ℕ := 6
def SELL_PACKETS : ℕ := 6
def LEVELS_EACH_SIDE : ℕ := 10
def BUY_STEP_PCT : ℚ := 8 / 1000
def SELL_STEP_PCT : ℚ := 6 / 1000
def ORDER_NOTIONAL_USD : ℚ := 25
def MICRO_SEED_USD : ℚ := 25
def START_USD : ℚ := 1000
def START_SOL : ℚ := 0
def SIM_SLIPPAGE_PCT : ℚ := 0

/-- One rung of the ladder: `{ price, state: 'WAIT' | 'FILLED' }`. -/
inductive RungState where
  | WAIT
  | FILLED
deriving DecidableEq, Repr

structure Rung where
  price : ℚ
  state : RungState
deriving DecidableEq, Repr

/-- One open position:
`{ id, entryPrice, qtySol, costUsd, openedAt, microSeed }`. -/
structure Position where
  id : ℕ
  entryPrice : ℚ
  qtySol : ℚ
  costUsd : ℚ
  openedAt : ℤ
  microSeed : Bool
deriving DecidableEq, Repr

/-- One trade-log entry: `{ ts, side, price, qtySol, pnlUsd?, note? }`. -/
structure Trade where
  ts : ℤ
  side : Side
  price : ℚ
  qtySol : ℚ
  pnlUsd : Option ℚ
  note : Option String
deriving DecidableEq, Repr

structure Balances where
  usd : ℚ
  sol : ℚ
deriving DecidableEq, Repr

/-- `stats = { trades, buys, sells, realizedPnlUsd, avgEntry }`. -/
structure Stats where
  trades : ℕ
  buys : ℕ
  sells : ℕ
  realizedPnlUsd : ℚ
  avgEntry : Option ℚ
deriving DecidableEq, Repr

/-- The module-scope mutable state of the dark-ladder variant. -/
structure DarkState where
  anchor : Option ℚ
  nowPrice : Option ℚ
  priceSource : String
  lastTickAt : ℤ
  lastPriceError : String
  openPositions : List Position
  trades : List Trade
  ladderBuys : List Rung
  ladderSells : List Rung
  balances : Balances
  stats : Stats
  nextId : ℕ
deriving DecidableEq, Repr

/-- The initial module-scope state at process start. -/
def startState : DarkState where
  anchor := none
  nowPrice := none
  priceSource := "N/A"
  lastTickAt := 0
  lastPriceError := ""
  openPositions := []
  trades := []
  ladderBuys := []
  ladderSells := []
  balances := { usd := START_USD, sol := START_SOL }
  stats := { trades := 0, buys := 0, sells := 0, realizedPnlUsd := 0, avgEntry := none }
  nextId := 1

/-- `buildLadder`, generalised over the step percentages and the number of
levels per side, which the source fixes as the constants `BUY_STEP_PCT`,
`SELL_STEP_PCT` and `LEVELS_EACH_SIDE` (the spec's contract
`build(anchorPrice, buyStepPct, sellStepPct, levelsPerSide)` exposes them
as parameters).  `buildLadder` below instantiates the constants. -/
def buildLadderGen (a bs ss : ℚ) (n : ℕ) : List Rung × List Rung :=
  let buys := (List.range n).map
    (fun i => { price := a * (1 - bs * ((i : ℚ) + 1)), state := RungState.WAIT })
  let sells := (List.range n).map
    (fun i => { price := a * (1 + ss * ((i : ℚ) + 1)), state := RungState.WAIT })
  (sortDescBy Rung.price buys, sortAscBy Rung.price sells)

/-- `buildLadder(a)` of the dark-ladder variant (runPaper.js lines 994-1008). -/
def buildLadder (a : ℚ) : List Rung × List Rung :=
  buildLadderGen a BUY_STEP_PCT SELL_STEP_PCT LEVELS_EACH_SIDE

/-- `ensureLadder()` (lines 1010-1017); `!anchor` is true for `null` and `0`. -/
def ensureLadder (s : DarkState) : DarkState :=
  if s.anchor.getD 0 = 0 then s
  else if s.ladderBuys = [] ∨ s.ladderSells = [] then
    let bl := buildLadder (s.anchor.getD 0)
    { s with ladderBuys := bl.1, ladderSells := bl.2 }
  else s

/-- `openCount()` (lines 1022-1024). -/
def openCount (s : DarkState) : ℕ := s.openPositions.length

/-- `guardBlocksBuyNext()` (lines 1025-1028): blocks a BUY when
`open + 1 > sell packets`. -/
def guardBlocksBuyNext (s : DarkState) : Bool :=
  decide (SELL_PACKETS < openCount s + 1)

/-- `recomputeAvgEntry()` (lines 1033-1041). -/
def recomputeAvgEntry (s : DarkState) : DarkState :=
  if s.openPositions = [] then
    { s with stats := { s.stats with avgEntry := none } }
  else
    let totalQty := (s.openPositions.map Position.qtySol).sum
    let totalCost := (s.openPositions.map Position.costUsd).sum
    { s with stats := { s.stats with
        avgEntry := if 0 < totalQty then some (totalCost / totalQty) else none } }

/-- `recordTrade(t)` (lines 1049-1052): unshift, keep the first 10. -/
def recordTrade (t : Trade) (s : DarkState) : DarkState :=
  { s with trades := (t :: s.trades).take 10 }

/-- `placeBuyAtPrice(fillPrice, costOverrideUsd, note, isMicroSeed)`
(lines 1054-1087).  Returns the JS boolean result together with the state
after the call. -/
def placeBuyAtPrice (now : ℤ) (fillPrice : ℚ) (costOverrideUsd : Option ℚ)
    (note : Option String) (isMicroSeed : Bool) (s : DarkState) : Bool × DarkState :=
  let costUsd := costOverrideUsd.getD ORDER_NOTIONAL_USD
  let qtySol := costUsd / fillPrice
  if s.balances.usd < costUsd then (false, s)
  else if BUY_PACKETS ≤ openCount s then (false, s)
  else if guardBlocksBuyNext s then (false, s)
  else
    let pos : Position :=
      { id := s.nextId, entryPrice := fillPrice, qtySol := qtySol,
        costUsd := costUsd, openedAt := now, microSeed := isMicroSeed }
    let s1 := { s with
      balances := { usd := s.balances.usd - costUsd, sol := s.balances.sol + qtySol },
      openPositions := s.openPositions ++ [pos],
      nextId := s.nextId + 1,
      stats := { s.stats with trades := s.stats.trades + 1, buys := s.stats.buys + 1 } }
    let s2 := recordTrade
      { ts := now, side := Side.BUY, price := fillPrice, qtySol := qtySol,
        pnlUsd := none, note := note } s1
    (true, recomputeAvgEntry s2)

/-- `placeSellAtPrice(fillPrice)` (lines 1089-1121).  The source `shift`s the
oldest position and `unshift`s it back on the balance check, which restores
the original list; the rejection branch therefore carries
`pos :: rest` (= the original list). -/
def placeSellAtPrice (now : ℤ) (fillPrice : ℚ) (s : DarkState) : Bool × DarkState :=
  match s.openPositions with
  | [] => (false, s)
  | pos :: rest =>
    if s.balances.sol < pos.qtySol then
      (false, { s with openPositions := pos :: rest })
    else
      let proceedsUsd := pos.qtySol * fillPrice
      let pnl := proceedsUsd - pos.costUsd
      let s1 := { s with
        balances := { usd := s.balances.usd + proceedsUsd, sol := s.balances.sol - pos.qtySol },
        openPositions := rest,
        stats := { s.stats with
          realizedPnlUsd := s.stats.realizedPnlUsd + pnl,
          trades := s.stats.trades + 1, sells := s.stats.sells + 1 } }
      let s2 := recordTrade
        { ts := now, side := Side.SELL, price := fillPrice, qtySol := pos.qtySol,
          pnlUsd := some pnl,
          note := if pos.microSeed then some "CLOSE_MICRO_SEED" else none } s1
      (true, recomputeAvgEntry s2)

/-- `runMicroSeedOnce()` (lines 1129-1149).  `Number.isFinite(null)` is
false, so the price guards are modelled by the `Option` match; `0` is a
finite number and passes them. -/
def runMicroSeedOnce (now : ℤ) (s : DarkState) : DarkState :=
  if MICRO_SEED_USD ≤ 0 then s
  else
    match s.nowPrice, s.anchor with
    | some np, some _ =>
      if 0 < s.balances.sol then s
      else if s.openPositions ≠ [] then s
      else
        let fillPrice := np * (1 + SIM_SLIPPAGE_PCT)
        (placeBuyAtPrice now fillPrice (some MICRO_SEED_USD) (some "MICRO_SEED") true s).2
    | _, _ => s

/-- The BUY loop of `simulateFills()` (lines 1156-1164): rungs are visited in
list order; a `FILLED` rung is skipped, a triggered rung attempts
`placeBuyAtPrice` and on failure the loop `break`s, leaving the remaining
rungs untouched. -/
def buyFillLoop (now : ℤ) (p : ℚ) : List Rung → DarkState → List Rung × DarkState
  | [], s => ([], s)
  | r :: rest, s =>
    if r.state = RungState.FILLED then
      let res := buyFillLoop now p rest s
      (r :: res.1, res.2)
    else if p ≤ r.price then
      let br := placeBuyAtPrice now (r.price * (1 + SIM_SLIPPAGE_PCT)) none none false s
      if br.1 then
        let res := buyFillLoop now p rest br.2
        ({ r with state := RungState.FILLED } :: res.1, res.2)
      else (r :: rest, br.2)
    else
      let res := buyFillLoop now p rest s
      (r :: res.1, res.2)

/-- The SELL loop of `simulateFills()` (lines 1167-1175). -/
def sellFillLoop (now : ℤ) (p : ℚ) : List Rung → DarkState → List Rung × DarkState
  | [], s => ([], s)
  | r :: rest, s =>
    if r.state = RungState.FILLED then
      let res := sellFillLoop now p rest s
      (r :: res.1, res.2)
    else if r.price ≤ p then
      let sr := placeSellAtPrice now (r.price * (1 - SIM_SLIPPAGE_PCT)) s
      if sr.1 then
        let res := sellFillLoop now p rest sr.2
        ({ r with state := RungState.FILLED } :: res.1, res.2)
      else (r :: rest, sr.2)
    else
      let res := sellFillLoop now p rest s
      (r :: res.1, res.2)

/-- `simulateFills()` (lines 1151-1176); `!nowPrice || !anchor` is true for
`null` and `0`. -/
def simulateFills (now : ℤ) (s : DarkState) : DarkState :=
  if s.nowPrice.getD 0 = 0 ∨ s.anchor.getD 0 = 0 then s
  else
    let s0 := ensureLadder s
    let p := s0.nowPrice.getD 0
    let rb := buyFillLoop now p s0.ladderBuys s0
    let s1 := { rb.2 with ladderBuys := rb.1 }
    let rs := sellFillLoop now p s1.ladderSells s1
    { rs.2 with ladderSells := rs.1 }

/-- `portfolioValueUsd()` (lines 1181-1184): `null` when no price is known. -/
def portfolioValueUsd (s : DarkState) : Option ℚ :=
  s.nowPrice.map (fun p => s.balances.usd + s.balances.sol * p)

/-- The snapshot object written by `saveState()` (lines 908-929). -/
structure Snapshot where
  anchor : Option ℚ
  nowPrice : Option ℚ
  priceSource : String
  lastTickAt : ℤ
  lastPriceError : String
  openPositions : List Position
  trades : List Trade
  ladderBuys : List Rung
  ladderSells : List Rung
  balances : Balances
  stats : Stats
  nextId : ℕ
  savedAt : ℤ
deriving DecidableEq, Repr

/-- `saveState()` (lines 908-929): serialises every state field plus `savedAt`. -/
def saveState (now : ℤ) (s : DarkState) : Snapshot where
  anchor := s.anchor
  nowPrice := s.nowPrice
  priceSource := s.priceSource
  lastTickAt := s.lastTickAt
  lastPriceError := s.lastPriceError
  openPositions := s.openPositions
  trades := s.trades
  ladderBuys := s.ladderBuys
  ladderSells := s.ladderSells
  balances := s.balances
  stats := s.stats
  nextId := s.nextId
  savedAt := now

/-- `loadState()` (lines 881-906) applied to a parsed snapshot: each field is
restored with an `x ?? previous` fallback.  The fallback only has an effect
on the nullable fields `anchor` and `nowPrice`; every other saved field is a
non-null number, string, array or object, for which `??` is the identity.
`Array.isArray` holds for every serialised list. -/
def loadState (snap : Snapshot) (prev : DarkState) : DarkState where
  anchor := match snap.anchor with
    | none => prev.anchor
    | some a => some a
  nowPrice := match snap.nowPrice with
    | none => prev.nowPrice
    | some p => some p
  priceSource := snap.priceSource
  lastTickAt := snap.lastTickAt
  lastPriceError := snap.lastPriceError
  openPositions := snap.openPositions
  trades := snap.trades
  ladderBuys := snap.ladderBuys
  ladderSells := snap.ladderSells
  balances := snap.balances
  stats := snap.stats
  nextId := snap.nextId

/-- The success path of `tick()` (lines 1545-1574): store the fetched price,
initialise the anchor, ladder and micro-seed on the first successful tick
(`!anchor` is true for `null` and `0`), then run `simulateFills`. -/
def tickWith (price : ℚ) (src : String) (now : ℤ) (s : DarkState) : DarkState :=
  let s0 := { s with nowPrice := some price, priceSource := src,
                     lastTickAt := now, lastPriceError := "" }
  let s1 :=
    if s0.anchor.getD 0 = 0 then
      let bl := buildLadder price
      runMicroSeedOnce now
        { s0 with anchor := some price, ladderBuys := bl.1, ladderSells := bl.2 }
    else s0
  simulateFills now s1

/-- One engine transition.  `tick` is the engine's own transition (with the
fetched price, which every price source validates as finite and positive);
`buy`, `sell`, `fills` and `seed` additionally allow the ledger operations
to be invoked directly, at any positive fill price and (for BUY) any
positive cost — a superset of the call sites in the source
(`simulateFills` uses ladder-rung prices and the default notional,
`runMicroSeedOnce` uses the market price and `MICRO_SEED_USD`). -/
inductive Step : DarkState → DarkState → Prop where
  | tick (s : DarkState) (price : ℚ) (src : String) (now : ℤ) (hp : 0 < price) :
      Step s (tickWith price src now s)
  | buy (s : DarkState) (now : ℤ) (fillPrice : ℚ) (co : Option ℚ)
      (note : Option String) (ms : Bool) (hfp : 0 < fillPrice)
      (hco : 0 < co.getD ORDER_NOTIONAL_USD) :
      Step s (placeBuyAtPrice now fillPrice co note ms s).2
  | sell (s : DarkState) (now : ℤ) (fillPrice : ℚ) (hfp : 0 < fillPrice) :
      Step s (placeSellAtPrice now fillPrice s).2
  | fills (s : DarkState) (now : ℤ) : Step s (simulateFills now s)
  | seed (s : DarkState) (now : ℤ) : Step s (runMicroSeedOnce now s)

/-- States reachable from the process-start state by engine transitions. -/
def Reachable (s : DarkState) : Prop :=
  Relation.ReflTransGen Step startState s

end Dark

namespace V1

/- ===== AUTO RE-ANCHOR CONFIG of the first variant (lines 48-52) ===== -/

def AUTO_REANCHOR_ENABLED : Bool := true
def REANCHOR_TRIGGER_PCT : ℚ := 4 / 100
def REANCHOR_COOLDOWN_MS : ℤ := 45 * 60 * 1000
def REANCHOR_NO_FILL_WINDOW_MS : ℤ := 10 * 60 * 1000
def REANCHOR_MAX_USAGE_PCT : ℚ := 80 / 100

/-- `pctDiff(a, b)` (lines 111-114): `!a || !b` is true for `null` and `0`,
both modelled as `0` here (the arguments at the call site are numbers). -/
def pctDiff (a b : ℚ) : ℚ :=
  if a = 0 ∨ b = 0 then 0 else |a - b| / b

/-- The decision object returned by `shouldReanchor`; the first three
rejections carry no `drift` field.  The extra usage diagnostics of the
`usage_high` branch are not needed by any claim and are not modelled. -/
structure ReanchorDecision where
  ok : Bool
  reason : String
  drift : Option ℚ
deriving DecidableEq, Repr

/-- `shouldReanchor({...})` (lines 319-348).  `!x || !Number.isFinite(x)` on
a rational is `x = 0` after the `Option` (null) match. -/
def shouldReanchor (now : ℤ) (currentPrice anchorPrice : Option ℚ)
    (lastReanchorAt lastFillAt : ℤ) (buysUsedPct sellsUsedPct : ℚ) : ReanchorDecision :=
  if ¬ AUTO_REANCHOR_ENABLED then { ok := false, reason := "disabled", drift := none }
  else if anchorPrice.getD 0 = 0 then { ok := false, reason := "no_anchor", drift := none }
  else if currentPrice.getD 0 = 0 then { ok := false, reason := "bad_price", drift := none }
  else
    let drift := pctDiff (currentPrice.getD 0) (anchorPrice.getD 0)
    if drift < REANCHOR_TRIGGER_PCT then
      { ok := false, reason := "drift_small", drift := some drift }
    else if now - lastReanchorAt < REANCHOR_COOLDOWN_MS then
      { ok := false, reason := "cooldown", drift := some drift }
    else if now - lastFillAt < REANCHOR_NO_FILL_WINDOW_MS then
      { ok := false, reason := "recent_fill", drift := some drift }
    else if REANCHOR_MAX_USAGE_PCT ≤ buysUsedPct ∨ REANCHOR_MAX_USAGE_PCT ≤ sellsUsedPct then
      { ok := false, reason := "usage_high", drift := some drift }
    else { ok := true, reason := "reanchor", drift := some drift }

/-- One open order of the first variant (line 79). -/
structure V1Order where
  id : ℕ
  side : Side
  price : ℚ
  qtySol : ℚ
  notionalUsd : ℚ
  createdAt : ℤ
deriving DecidableEq, Repr

structure V1Balances where
  usd : ℚ
  sol : ℚ
  startUsd : ℚ
  startSol : ℚ
deriving DecidableEq, Repr

structure V1Stats where
  fills : ℕ
  buys : ℕ
  sells : ℕ
  realizedPnlUsd : ℚ
  avgCostUsdPerSol : ℚ
deriving DecidableEq, Repr

/-- The module-scope mutable state of the first variant (lines 72-95). -/
structure V1State where
  anchorPrice : Option ℚ
  lastReanchorAt : ℤ
  lastFillAt : ℤ
  lastPrice : Option ℚ
  lastPriceSource : String
  openOrders : List V1Order
  nextOrderId : ℕ
  balances : V1Balances
  stats : V1Stats
deriving DecidableEq, Repr

/-- The snapshot written by the first variant's `saveState()` (lines 148-166):
it includes `lastPrice` and `lastPriceSource`. -/
structure V1Snapshot where
  anchorPrice : Option ℚ
  lastReanchorAt : ℤ
  lastFillAt : ℤ
  openOrders : List V1Order
  nextOrderId : ℕ
  balances : V1Balances
  stats : V1Stats
  lastPrice : Option ℚ
  lastPriceSource : String
  savedAt : ℤ
deriving DecidableEq, Repr

/-- The first variant's `saveState()` (lines 148-166). -/
def saveState (now : ℤ) (s : V1State) : V1Snapshot where
  anchorPrice := s.anchorPrice
  lastReanchorAt := s.lastReanchorAt
  lastFillAt := s.lastFillAt
  openOrders := s.openOrders
  nextOrderId := s.nextOrderId
  balances := s.balances
  stats := s.stats
  lastPrice := s.lastPrice
  lastPriceSource := s.lastPriceSource
  savedAt := now

/-- The first variant's `loadState()` (lines 126-146): restores
`anchorPrice`, `lastReanchorAt`, `lastFillAt`, `openOrders`, `nextOrderId`,
`balances` and `stats` — and nothing else.  In particular the snapshot's
`lastPrice` and `lastPriceSource` are never read back. -/
def loadState (snap : V1Snapshot) (prev : V1State) : V1State :=
  { prev with
    anchorPrice := match snap.anchorPrice with
      | none => prev.anchorPrice
      | some a => some a,
    lastReanchorAt := snap.lastReanchorAt,
    lastFillAt := snap.lastFillAt,
    openOrders := snap.openOrders,
    nextOrderId := snap.nextOrderId,
    balances := snap.balances,
    stats := snap.stats }

end V1

namespace FS

/- ===== CONFIG of the fixed-step variant (src/unnamed/part_001 lines 16-27) ===== -/

def GRID_STEP_USD : ℚ := 1 / 2
def LEVELS_ABOVE : ℕ := 6
def LEVELS_BELOW : ℕ := 6
def START_USDC : ℚ := 500
def START_SOL : ℚ := 0
def USD_PER_BUY : ℚ := 25
def BUY_PACKETS : ℕ := 6
def SELL_PACKETS : ℕ := 6

/-- `levelStates[k] = "WAIT" | "HIT" | "FILLED"`. -/
inductive LvlState where
  | WAIT
  | HIT
  | FILLED
deriving DecidableEq, Repr

/-- The side letter of a level key (`"B:125.50"` / `"S:126.00"`). -/
inductive LSide where
  | B
  | S
deriving DecidableEq, Repr

/-- A level key `levelKey(side, price)`; level prices are already rounded to
two decimals, on which `fmt2` is injective, so the key is modelled as the
side together with the rounded price. -/
abbrev LKey := LSide × ℚ

/-- `positions[levelKey] = { qtySol, entryPrice, openedAt }`. -/
structure FPos where
  qtySol : ℚ
  entryPrice : ℚ
  openedAt : ℤ
deriving DecidableEq, Repr

/-- One trade-log entry `{ id, side, level, price, qtySol, pnl, at }`.  The
random-suffixed string id is irrelevant to every claim and is not modelled;
`level` is kept as the rounded level price that `fmt2` prints. -/
structure FTrade where
  side : Side
  level : ℚ
  price : ℚ
  qtySol : ℚ
  pnl : ℚ
  tsAt : ℤ
deriving DecidableEq, Repr

/-- The fixed-step variant's `state` object (lines 49-84). -/
structure FState where
  anchor : Option ℚ
  step : ℚ
  levelsAbove : ℕ
  levelsBelow : ℕ
  usdc : ℚ
  sol : ℚ
  realizedPnl : ℚ
  lastPrice : Option ℚ
  levelStates : List (LKey × LvlState)
  positions : List (LKey × FPos)
  trades : List FTrade
  lastError : Option String
  buyCapacity : ℕ
  sellCapacity : ℕ
deriving DecidableEq, Repr

/-- `buildLevels(anchor)` (lines 134-148): sell levels are pushed for
`i = levelsAbove .. 1` (farthest first), buy levels for
`i = 1 .. levelsBelow` (nearest first); each price is `round2`-ed. -/
def buildLevels (s : FState) (anchor : ℚ) : List ℚ × List ℚ :=
  let sells := (downFrom s.levelsAbove).map (fun i => round2 (anchor + s.step * (i : ℚ)))
  let buys := (List.range s.levelsBelow).map
    (fun i => round2 (anchor - s.step * ((i : ℚ) + 1)))
  (sells, buys)

/-- `clampTrades()` (lines 118-120): keep the last 100 trades. -/
def clampTrades (l : List FTrade) : List FTrade :=
  if 100 < l.length then l.drop (l.length - 100) else l

/-- `buysFilled` of `computeStats` (line 182). -/
def buysFilled (s : FState) : ℕ :=
  (s.trades.filter (fun t => t.side = Side.BUY)).length

/-- `sellsFilled` of `computeStats` (line 183). -/
def sellsFilled (s : FState) : ℕ :=
  (s.trades.filter (fun t => t.side = Side.SELL)).length

/-- `openPositions` of `computeStats` (line 185):
`Math.max(0, buysFilled - sellsFilled)`, which is ℕ-truncated subtraction. -/
def statsOpenPositions (s : FState) : ℕ :=
  buysFilled s - sellsFilled s

/-- `canPlaceAnotherBuy()` (lines 211-214):
`stats.openPositions + 1 <= stats.sellCapacity`. -/
def canPlaceAnotherBuy (s : FState) : Bool :=
  decide (statsOpenPositions s + 1 ≤ s.sellCapacity)

/-- The loop body of `tryExecuteBuys` (lines 268-315), iterating the buy
levels nearest first.  A guard rejection marks the level `HIT`, records the
error and `return`s; a cash rejection `continue`s to the next (farther)
level. -/
def buysLoop (p : ℚ) (now : ℤ) : List ℚ → FState → FState
  | [], s => s
  | lvl :: rest, s =>
    let k : LKey := (LSide.B, lvl)
    let st := lookupD s.levelStates k LvlState.WAIT
    if (st = LvlState.HIT ∨ st = LvlState.WAIT) ∧ p ≤ lvl then
      if (lookupA s.positions k).isSome then
        buysLoop p now rest { s with levelStates := setA s.levelStates k LvlState.FILLED }
      else if canPlaceAnotherBuy s = false then
        { s with levelStates := setA s.levelStates k LvlState.HIT,
                 lastError := some "BUY_BLOCKED: sell packets exhausted" }
      else if s.usdc < USD_PER_BUY then
        buysLoop p now rest s
      else
        let qtySol := USD_PER_BUY / p
        buysLoop p now rest
          { s with usdc := round2 (s.usdc - USD_PER_BUY),
                   sol := s.sol + qtySol,
                   positions := setA s.positions k
                     { qtySol := qtySol, entryPrice := p, openedAt := now },
                   levelStates := setA s.levelStates k LvlState.FILLED,
                   trades := clampTrades (s.trades ++
                     [{ side := Side.BUY, level := lvl, price := round2 p,
                        qtySol := qtySol, pnl := 0, tsAt := now }]),
                   lastError := none }
    else buysLoop p now rest s

/-- `tryExecuteBuys(currentPrice)` (lines 263-316). -/
def tryExecuteBuys (p : ℚ) (now : ℤ) (s : FState) : FState :=
  match s.anchor with
  | none => s
  | some a => buysLoop p now (buildLevels s a).2 s

/-- The scan over BUY trades that picks the oldest still-open position
(lines 332-342): the first BUY trade whose level key is still in
`positions`. -/
def firstOpenKey (positions : List (LKey × FPos)) : List FTrade → Option LKey
  | [] => none
  | t :: rest =>
    let k : LKey := (LSide.B, t.level)
    if (lookupA positions k).isSome then some k else firstOpenKey positions rest

/-- The body of `tryExecuteSells` after the lowest reached sell level has
been determined and possibly marked `HIT` (lines 329-381): find the oldest
still-open position (first BUY trade whose level still has a position,
falling back to the first position key), check the SOL balance with the
`1e-12` tolerance, and close that single position at the current market
price `p`, marking only `sellKey = (S, sellLevel)` as `FILLED`. -/
def sellAgainstOldest (p : ℚ) (now : ℤ) (sellLevel : ℚ) (s1 : FState) : FState :=
  match s1.positions with
  | [] => s1
  | pk :: _ =>
    let buyTrades := s1.trades.filter (fun t => t.side = Side.BUY)
    let posKey := (firstOpenKey s1.positions buyTrades).getD pk.1
    match lookupA s1.positions posKey with
    | none => s1
    | some pos =>
      if s1.sol + 1 / 1000000000000 < pos.qtySol then
        { s1 with lastError := some "Not enough SOL to sell (paper mismatch)" }
      else
        let usdProceeds := pos.qtySol * p
        let pnl := (p - pos.entryPrice) * pos.qtySol
        { s1 with
          sol := s1.sol - pos.qtySol,
          usdc := round2 (s1.usdc + usdProceeds),
          realizedPnl := round2 (s1.realizedPnl + pnl),
          positions := eraseA s1.positions posKey,
          trades := clampTrades (s1.trades ++
            [{ side := Side.SELL, level := sellLevel, price := round2 p,
               qtySol := pos.qtySol, pnl := round2 pnl, tsAt := now }]),
          levelStates := setA s1.levelStates (LSide.S, sellLevel) LvlState.FILLED,
          lastError := none }

/-- `tryExecuteSells(currentPrice)` (lines 318-382): executes at most one
sell per call, at the current market price, against the lowest reached sell
level. -/
def tryExecuteSells (p : ℚ) (now : ℤ) (s : FState) : FState :=
  match s.anchor with
  | none => s
  | some a =>
    let sells := (buildLevels s a).1
    let reached := sells.filter (fun lv => lv ≤ p)
    match listMin? reached with
    | none => s
    | some sellLevel =>
      let sellKey : LKey := (LSide.S, sellLevel)
      let s1 :=
        if lookupD s.levelStates sellKey LvlState.WAIT = LvlState.WAIT then
          { s with levelStates := setA s.levelStates sellKey LvlState.HIT }
        else s
      sellAgainstOldest p now sellLevel s1

end FS

namespace Dark

/-- Well-formedness of one open position: positive entry price and quantity,
and the recorded cost is exactly `entryPrice * qtySol` (as computed by
`placeBuyAtPrice`, where `qtySol = costUsd / fillPrice`). -/
def goodPos (pos : Position) : Prop :=
  0 < pos.entryPrice ∧ 0 < pos.qtySol ∧ pos.costUsd = pos.entryPrice * pos.qtySol

/-- The state invariant of the dark-ladder engine: non-negative balances and
the exact accounting identities that tie them to the open positions and the
realised PnL. -/
structure Inv (s : DarkState) : Prop where
  usd_nonneg : 0 ≤ s.balances.usd
  pos_good : ∀ pos ∈ s.openPositions, goodPos pos
  anchor_pos : ∀ a, s.anchor = some a → 0 < a
  price_pos : ∀ p, s.nowPrice = some p → 0 < p
  buys_pos : ∀ r ∈ s.ladderBuys, 0 < r.price
  sells_pos : ∀ r ∈ s.ladderSells, 0 < r.price
  sol_eq : s.balances.sol = (s.openPositions.map Position.qtySol).sum
  usd_eq : s.balances.usd
    = START_USD + s.stats.realizedPnlUsd - (s.openPositions.map Position.costUsd).sum
  count_le : s.openPositions.length ≤ BUY_PACKETS

/-- The spec's unrealised PnL over the open positions:
`Σ (markPrice - entryPrice) * quantity` (exact arithmetic; the fixed-step
variant's `computeUnrealizedPnl` is this sum followed by `round2`). -/
def unrealizedPnl (markPrice : ℚ) (s : DarkState) : ℚ :=
  (s.openPositions.map (fun pos => (markPrice - pos.entryPrice) * pos.qtySol)).sum

/-- A populated dark-ladder state (every nullable field present), used to
witness snapshot and ledger theorems on concrete data. -/
def popState : DarkState where
  anchor := some 100
  nowPrice := some 101
  priceSource := "BINANCE"
  lastTickAt := 1234
  lastPriceError := ""
  openPositions :=
    [{ id := 1, entryPrice := 99, qtySol := 1 / 4, costUsd := 99 / 4,
       openedAt := 10, microSeed := false }]
  trades :=
    [{ ts := 10, side := Side.BUY, price := 99, qtySol := 1 / 4,
       pnlUsd := none, note := none }]
  ladderBuys := [{ price := 99, state := RungState.FILLED }]
  ladderSells := [{ price := 102, state := RungState.WAIT }]
  balances := { usd := 900, sol := 1 / 4 }
  stats := { trades := 1, buys := 1, sells := 0, realizedPnlUsd := 0, avgEntry := some 99 }
  nextId := 2

/-- A state holding three open positions P1, P2, P3 (in that insertion
order, with distinct entry prices), used to witness FIFO closing. -/
def fifoState : DarkState :=
  { startState with
    openPositions :=
      [{ id := 1, entryPrice := 10, qtySol := 1, costUsd := 10, openedAt := 1, microSeed := false },
       { id := 2, entryPrice := 20, qtySol := 2, costUsd := 40, openedAt := 2, microSeed := false },
       { id := 3, entryPrice := 30, qtySol := 3, costUsd := 90, openedAt := 3, microSeed := false }],
    balances := { usd := 860, sol := 6 } }

end Dark

namespace V1

/-- The first variant's module-scope state at process start (lines 72-95). -/
def bootState : V1State where
  anchorPrice := none
  lastReanchorAt := 0
  lastFillAt := 0
  lastPrice := none
  lastPriceSource := "N/A"
  openOrders := []
  nextOrderId := 1
  balances := { usd := 1000, sol := 0, startUsd := 1000, startSol := 0 }
  stats := { fills := 0, buys := 0, sells := 0, realizedPnlUsd := 0, avgCostUsdPerSol := 0 }

/-- A populated first-variant state: every field set, in particular
`lastPrice` and `lastPriceSource`. -/
def popState : V1State where
  anchorPrice := some 100
  lastReanchorAt := 5
  lastFillAt := 6
  lastPrice := some 101
  lastPriceSource := "JUP"
  openOrders :=
    [{ id := 3, side := Side.BUY, price := 99, qtySol := 25 / 99,
       notionalUsd := 25, createdAt := 4 }]
  nextOrderId := 4
  balances := { usd := 900, sol := 1, startUsd := 1000, startSol := 0 }
  stats := { fills := 3, buys := 2, sells := 1, realizedPnlUsd := 5, avgCostUsdPerSol := 99 }

end V1

namespace FS

/-- A loadable fixed-step state on which the BUY pass demonstrably keeps
running after a cash rejection: the nearest buy level (99.50) is `WAIT` and
triggered but cash is short, while the farther level (99.00) still holds an
open position whose level state was not persisted as `FILLED` (the
variant's `loadState` restores `positions` and `levelStates`
independently from the snapshot file). -/
def cexState : FState where
  anchor := some 100
  step := 1 / 2
  levelsAbove := 0
  levelsBelow := 2
  usdc := 10
  sol := 1 / 10
  realizedPnl := 0
  lastPrice := some 98
  levelStates := []
  positions := [((LSide.B, 99), { qtySol := 1 / 10, entryPrice := 99, openedAt := 0 })]
  trades := []
  lastError := none
  buyCapacity := 6
  sellCapacity := 6

/-- A fixed-step state with one open position and one reachable sell level,
used to witness the sell-pass theorem on concrete data. -/
def sellWState : FState where
  anchor := some 100
  step := 1 / 2
  levelsAbove := 2
  levelsBelow := 1
  usdc := 475
  sol := 1 / 4
  realizedPnl := 0
  lastPrice := some 101
  levelStates := [((LSide.B, 199 / 2), LvlState.FILLED)]
  positions := [((LSide.B, 199 / 2), { qtySol := 1 / 4, entryPrice := 100, openedAt := 0 })]
  trades :=
    [{ side := Side.BUY, level := 199 / 2, price := 100, qtySol := 1 / 4, pnl := 0, tsAt := 0 }]
  lastError := none
  buyCapacity := 6
  sellCapacity := 6

end FS

/-! ### Generic helper lemmas -/

theorem lookupA_setA_self {α β : Type} [DecidableEq α] (l : List (α × β)) (k : α) (v : β) :
    lookupA (setA l k v) k = some v := by
  induction l with
  | nil => simp [setA, lookupA]
  | cons kv rest ih =>
    obtain ⟨k', v'⟩ := kv
    by_cases h : k' = k
    · simp [setA, lookupA, h]
    · simp [setA, lookupA, h, ih]

theorem lookupA_setA_ne {α β : Type} [DecidableEq α] (l : List (α × β)) (k k' : α) (v : β)
    (h : k' ≠ k) : lookupA (setA l k v) k' = lookupA l k' := by
  induction l with
  | nil => simp [setA, lookupA, Ne.symm h]
  | cons kv rest ih =>
    obtain ⟨k0, v0⟩ := kv
    by_cases h0 : k0 = k
    · subst h0
      simp [setA, lookupA, Ne.symm h]
    · simp [setA, lookupA, h0, ih]

theorem lookupD_setA {α β : Type} [DecidableEq α] (l : List (α × β)) (k k' : α) (v d : β) :
    lookupD (setA l k v) k' d = if k' = k then v else lookupD l k' d := by
  by_cases h : k' = k
  · subst h
    simp [lookupD, lookupA_setA_self]
  · simp [lookupD, lookupA_setA_ne l k k' v h, h]

theorem eraseA_length_le {α β : Type} [DecidableEq α] (l : List (α × β)) (a : α) :
    l.length ≤ (eraseA l a).length + 1 := by
  induction l with
  | nil => simp [eraseA]
  | cons kv rest ih =>
    obtain ⟨k, v⟩ := kv
    by_cases h : k = a
    · simp [eraseA, h]
    · simp only [eraseA, h, if_false, List.length_cons]
      omega

theorem insertDescBy_of_head {α : Type} (key : α → ℚ) (x : α) (l : List α)
    (h : ∀ y ∈ l, key y ≤ key x) : insertDescBy key x l = x :: l := by
  cases l with
  | nil => rfl
  | cons y ys => simp [insertDescBy, h y (by simp)]

theorem sortDescBy_of_sorted {α : Type} (key : α → ℚ) (l : List α)
    (h : l.Pairwise (fun a b => key b ≤ key a)) : sortDescBy key l = l := by
  induction l with
  | nil => rfl
  | cons x xs ih =>
    rw [List.pairwise_cons] at h
    rw [sortDescBy, ih h.2, insertDescBy_of_head key x xs h.1]

theorem insertAscBy_of_head {α : Type} (key : α → ℚ) (x : α) (l : List α)
    (h : ∀ y ∈ l, key x ≤ key y) : insertAscBy key x l = x :: l := by
  cases l with
  | nil => rfl
  | cons y ys => simp [insertAscBy, h y (by simp)]

theorem sortAscBy_of_sorted {α : Type} (key : α → ℚ) (l : List α)
    (h : l.Pairwise (fun a b => key a ≤ key b)) : sortAscBy key l = l := by
  induction l with
  | nil => rfl
  | cons x xs ih =>
    rw [List.pairwise_cons] at h
    rw [sortAscBy, ih h.2, insertAscBy_of_head key x xs h.1]

theorem listMin?_mem (l : List ℚ) (m : ℚ) (h : listMin? l = some m) : m ∈ l := by
  induction l generalizing m with
  | nil => simp [listMin?] at h
  | cons x xs ih =>
    rw [listMin?] at h
    cases hxs : listMin? xs with
    | none =>
      rw [hxs] at h
      simp at h
      simp [h]
    | some m' =>
      rw [hxs] at h
      simp at h
      rcases min_choice x m' with hc | hc <;> rw [← h, hc]
      · simp
      · simp [ih m' hxs]

/-! ### Dark-ladder: frame and rejection lemmas -/

namespace Dark

@[simp] theorem recordTrade_balances (t : Trade) (s : DarkState) :
    (recordTrade t s).balances = s.balances := rfl

@[simp] theorem recordTrade_openPositions (t : Trade) (s : DarkState) :
    (recordTrade t s).openPositions = s.openPositions := rfl

@[simp] theorem recordTrade_anchor (t : Trade) (s : DarkState) :
    (recordTrade t s).anchor = s.anchor := rfl

@[simp] theorem recordTrade_nowPrice (t : Trade) (s : DarkState) :
    (recordTrade t s).nowPrice = s.nowPrice := rfl

@[simp] theorem recordTrade_ladderBuys (t : Trade) (s : DarkState) :
    (recordTrade t s).ladderBuys = s.ladderBuys := rfl

@[simp] theorem recordTrade_ladderSells (t : Trade) (s : DarkState) :
    (recordTrade t s).ladderSells = s.ladderSells := rfl

@[simp] theorem recordTrade_stats (t : Trade) (s : DarkState) :
    (recordTrade t s).stats = s.stats := rfl

@[simp] theorem recomputeAvgEntry_balances (s : DarkState) :
    (recomputeAvgEntry s).balances = s.balances := by
  unfold recomputeAvgEntry
  split_ifs <;> rfl

@[simp] theorem recomputeAvgEntry_openPositions (s : DarkState) :
    (recomputeAvgEntry s).openPositions = s.openPositions := by
  unfold recomputeAvgEntry
  split_ifs <;> rfl

@[simp] theorem recomputeAvgEntry_anchor (s : DarkState) :
    (recomputeAvgEntry s).anchor = s.anchor := by
  unfold recomputeAvgEntry
  split_ifs <;> rfl

@[simp] theorem recomputeAvgEntry_nowPrice (s : DarkState) :
    (recomputeAvgEntry s).nowPrice = s.nowPrice := by
  unfold recomputeAvgEntry
  split_ifs <;> rfl

@[simp] theorem recomputeAvgEntry_ladderBuys (s : DarkState) :
    (recomputeAvgEntry s).ladderBuys = s.ladderBuys := by
  unfold recomputeAvgEntry
  split_ifs <;> rfl

@[simp] theorem recomputeAvgEntry_ladderSells (s : DarkState) :
    (recomputeAvgEntry s).ladderSells = s.ladderSells := by
  unfold recomputeAvgEntry
  split_ifs <;> rfl

@[simp] theorem recomputeAvgEntry_realized (s : DarkState) :
    (recomputeAvgEntry s).stats.realizedPnlUsd = s.stats.realizedPnlUsd := by
  unfold recomputeAvgEntry
  split_ifs <;> rfl

/-- A rejected BUY leaves the state exactly unchanged. -/
theorem placeBuyAtPrice_rejected (now : ℤ) (fp : ℚ) (co : Option ℚ) (note : Option String)
    (ms : Bool) (s : DarkState)
    (h : (placeBuyAtPrice now fp co note ms s).1 = false) :
    (placeBuyAtPrice now fp co note ms s).2 = s := by
  unfold placeBuyAtPrice at h ⊢
  by_cases h1 : s.balances.usd < co.getD ORDER_NOTIONAL_USD
  · simp [h1]
  · by_cases h2 : BUY_PACKETS ≤ openCount s
    · simp [h1, h2]
    · by_cases h3 : guardBlocksBuyNext s = true
      · simp [h1, h2, h3]
      · simp [h1, h2, h3] at h

/-- A rejected SELL leaves the state exactly unchanged (the source `shift`s
the head position and `unshift`s it back). -/
theorem placeSellAtPrice_rejected (now : ℤ) (fp : ℚ) (s : DarkState)
    (h : (placeSellAtPrice now fp s).1 = false) :
    (placeSellAtPrice now fp s).2 = s := by
  rcases heq : s.openPositions with _ | ⟨pos, rest⟩
  · simp [placeSellAtPrice, heq]
  · by_cases hsol : s.balances.sol < pos.qtySol
    · simp only [placeSellAtPrice, heq, hsol, if_true]
      rw [← heq]
    · simp [placeSellAtPrice, heq, hsol] at h

/-- `placeBuyAtPrice` never touches the anchor, the price or the ladders. -/
theorem placeBuyAtPrice_frame (now : ℤ) (fp : ℚ) (co : Option ℚ) (note : Option String)
    (ms : Bool) (s : DarkState) :
    (placeBuyAtPrice now fp co note ms s).2.anchor = s.anchor ∧
    (placeBuyAtPrice now fp co note ms s).2.nowPrice = s.nowPrice ∧
    (placeBuyAtPrice now fp co note ms s).2.ladderBuys = s.ladderBuys ∧
    (placeBuyAtPrice now fp co note ms s).2.ladderSells = s.ladderSells := by
  unfold placeBuyAtPrice
  by_cases h1 : s.balances.usd < co.getD ORDER_NOTIONAL_USD
  · simp [h1]
  · by_cases h2 : BUY_PACKETS ≤ openCount s
    · simp [h1, h2]
    · by_cases h3 : guardBlocksBuyNext s = true <;> simp [h1, h2, h3]

/-- `placeSellAtPrice` never touches the anchor, the price or the ladders. -/
theorem placeSellAtPrice_frame (now : ℤ) (fp : ℚ) (s : DarkState) :
    (placeSellAtPrice now fp s).2.anchor = s.anchor ∧
    (placeSellAtPrice now fp s).2.nowPrice = s.nowPrice ∧
    (placeSellAtPrice now fp s).2.ladderBuys = s.ladderBuys ∧
    (placeSellAtPrice now fp s).2.ladderSells = s.ladderSells := by
  rcases heq : s.openPositions with _ | ⟨pos, rest⟩
  · simp [placeSellAtPrice, heq]
  · by_cases hsol : s.balances.sol < pos.qtySol <;> simp [placeSellAtPrice, heq, hsol]

end Dark

namespace Dark

/-- An accepted BUY passed the cash check, the buy-packet check and the
sell-packet guard, and appended exactly one position. -/
theorem placeBuyAtPrice_accepted (now : ℤ) (fp : ℚ) (co : Option ℚ) (note : Option String)
    (ms : Bool) (s : DarkState)
    (h : (placeBuyAtPrice now fp co note ms s).1 = true) :
    ¬ s.balances.usd < co.getD ORDER_NOTIONAL_USD ∧
    openCount s < BUY_PACKETS ∧
    guardBlocksBuyNext s = false ∧
    (placeBuyAtPrice now fp co note ms s).2.openPositions
      = s.openPositions ++
        [{ id := s.nextId, entryPrice := fp, qtySol := co.getD ORDER_NOTIONAL_USD / fp,
           costUsd := co.getD ORDER_NOTIONAL_USD, openedAt := now, microSeed := ms }] := by
  unfold placeBuyAtPrice at h ⊢
  by_cases h1 : s.balances.usd < co.getD ORDER_NOTIONAL_USD
  · simp [h1] at h
  · by_cases h2 : BUY_PACKETS ≤ openCount s
    · simp [h1, h2] at h
    · by_cases h3 : guardBlocksBuyNext s = true
      · simp [h1, h2, h3] at h
      · refine ⟨h1, by omega, by simpa using h3, ?_⟩
        simp [h1, h2, h3]

/-- The invariant only depends on the balances, positions, anchor, price,
ladders and realised PnL. -/
theorem inv_of_fields_eq (s t : DarkState)
    (hb : t.balances = s.balances) (hp : t.openPositions = s.openPositions)
    (ha : t.anchor = s.anchor) (hn : t.nowPrice = s.nowPrice)
    (hlb : t.ladderBuys = s.ladderBuys) (hls : t.ladderSells = s.ladderSells)
    (hr : t.stats.realizedPnlUsd = s.stats.realizedPnlUsd) (hInv : Inv s) : Inv t := by
  constructor
  · rw [hb]; exact hInv.usd_nonneg
  · rw [hp]; exact hInv.pos_good
  · rw [ha]; exact hInv.anchor_pos
  · rw [hn]; exact hInv.price_pos
  · rw [hlb]; exact hInv.buys_pos
  · rw [hls]; exact hInv.sells_pos
  · rw [hb, hp]; exact hInv.sol_eq
  · rw [hb, hp, hr]; exact hInv.usd_eq
  · rw [hp]; exact hInv.count_le

/-- `recordTrade` preserves the invariant (it only touches the trade log). -/
theorem inv_recordTrade (t : Trade) (s : DarkState) (hInv : Inv s) :
    Inv (recordTrade t s) :=
  inv_of_fields_eq s (recordTrade t s) rfl rfl rfl rfl rfl rfl rfl hInv

/-- `recomputeAvgEntry` preserves the invariant (it only touches
`stats.avgEntry`). -/
theorem inv_recomputeAvgEntry (s : DarkState) (hInv : Inv s) :
    Inv (recomputeAvgEntry s) :=
  inv_of_fields_eq s (recomputeAvgEntry s) (recomputeAvgEntry_balances s)
    (recomputeAvgEntry_openPositions s) (recomputeAvgEntry_anchor s)
    (recomputeAvgEntry_nowPrice s) (recomputeAvgEntry_ladderBuys s)
    (recomputeAvgEntry_ladderSells s) (recomputeAvgEntry_realized s) hInv

/-- The explicit result of an accepted BUY. -/
theorem placeBuyAtPrice_eq_accepted (now : ℤ) (fp : ℚ) (co : Option ℚ)
    (note : Option String) (ms : Bool) (s : DarkState)
    (h1 : ¬ s.balances.usd < co.getD ORDER_NOTIONAL_USD)
    (h2 : ¬ BUY_PACKETS ≤ openCount s)
    (h3 : guardBlocksBuyNext s = false) :
    placeBuyAtPrice now fp co note ms s =
      (true, recomputeAvgEntry (recordTrade
        { ts := now, side := Side.BUY, price := fp,
          qtySol := co.getD ORDER_NOTIONAL_USD / fp, pnlUsd := none, note := note }
        { s with
          balances := { usd := s.balances.usd - co.getD ORDER_NOTIONAL_USD,
                        sol := s.balances.sol + co.getD ORDER_NOTIONAL_USD / fp },
          openPositions := s.openPositions ++
            [{ id := s.nextId, entryPrice := fp,
               qtySol := co.getD ORDER_NOTIONAL_USD / fp,
               costUsd := co.getD ORDER_NOTIONAL_USD, openedAt := now, microSeed := ms }],
          nextId := s.nextId + 1,
          stats := { s.stats with
            trades := s.stats.trades + 1, buys := s.stats.buys + 1 } })) := by
  unfold placeBuyAtPrice
  rw [if_neg h1, if_neg h2, if_neg (by simp [h3])]

/-- `placeBuyAtPrice` preserves the invariant whenever the fill price and
the effective cost are positive (as at both call sites: ladder-rung prices
with the default notional, and the market price with `MICRO_SEED_USD`). -/
theorem inv_placeBuyAtPrice (now : ℤ) (fp : ℚ) (co : Option ℚ) (note : Option String)
    (ms : Bool) (s : DarkState) (hInv : Inv s) (hfp : 0 < fp)
    (hco : 0 < co.getD ORDER_NOTIONAL_USD) :
    Inv (placeBuyAtPrice now fp co note ms s).2 := by
  by_cases h1 : s.balances.usd < co.getD ORDER_NOTIONAL_USD
  · rw [placeBuyAtPrice_rejected now fp co note ms s (by simp [placeBuyAtPrice, h1])]
    exact hInv
  · by_cases h2 : BUY_PACKETS ≤ openCount s
    · rw [placeBuyAtPrice_rejected now fp co note ms s (by simp [placeBuyAtPrice, h1, h2])]
      exact hInv
    · by_cases h3 : guardBlocksBuyNext s = true
      · rw [placeBuyAtPrice_rejected now fp co note ms s
          (by simp [placeBuyAtPrice, h1, h2, h3])]
        exact hInv
      · rw [placeBuyAtPrice_eq_accepted now fp co note ms s h1 h2 (by simpa using h3)]
        set c := co.getD ORDER_NOTIONAL_USD with hc
        apply inv_recomputeAvgEntry
        apply inv_recordTrade
        constructor
        · simpa using le_of_not_lt h1
        · intro pos hpos
          simp only [List.mem_append, List.mem_singleton] at hpos
          rcases hpos with hpos | hpos
          · exact hInv.pos_good pos hpos
          · subst hpos
            refine ⟨hfp, div_pos hco hfp, ?_⟩
            show c = fp * (c / fp)
            rw [mul_comm]
            exact (div_mul_cancel₀ c (ne_of_gt hfp)).symm
        · exact hInv.anchor_pos
        · exact hInv.price_pos
        · exact hInv.buys_pos
        · exact hInv.sells_pos
        · simp only [List.map_append, List.sum_append, List.map_cons, List.map_nil,
            List.sum_cons, List.sum_nil]
          have := hInv.sol_eq
          linarith
        · simp only [List.map_append, List.sum_append, List.map_cons, List.map_nil,
            List.sum_cons, List.sum_nil]
          have := hInv.usd_eq
          linarith
        · simp only [List.length_append, List.length_singleton]
          unfold openCount at h2
          omega

/-- `placeSellAtPrice` preserves the invariant whenever the fill price is
non-negative (the call site uses ladder-rung prices, which are positive). -/
theorem inv_placeSellAtPrice (now : ℤ) (fp : ℚ) (s : DarkState) (hInv : Inv s)
    (hfp : 0 ≤ fp) : Inv (placeSellAtPrice now fp s).2 := by
  rcases heq : s.openPositions with _ | ⟨pos, rest⟩
  · simp only [placeSellAtPrice, heq]
    exact hInv
  · by_cases hsol : s.balances.sol < pos.qtySol
    · simp only [placeSellAtPrice, heq, hsol, if_true]
      have : { s with openPositions := pos :: rest } = s := by rw [← heq]
      rw [this]
      exact hInv
    · simp only [placeSellAtPrice, heq, hsol, if_false]
      have hgood := hInv.pos_good pos (by rw [heq]; simp)
      apply inv_recomputeAvgEntry
      apply inv_recordTrade
      have hsol_eq := hInv.sol_eq
      have husd_eq := hInv.usd_eq
      rw [heq] at hsol_eq husd_eq
      simp only [List.map_cons, List.sum_cons] at hsol_eq husd_eq
      constructor <;> dsimp only
      · have hq : 0 < pos.qtySol := hgood.2.1
        have : 0 ≤ pos.qtySol * fp := mul_nonneg (le_of_lt hq) hfp
        have := hInv.usd_nonneg
        linarith
      · intro q hq
        exact hInv.pos_good q (by rw [heq]; simp [hq])
      · exact hInv.anchor_pos
      · exact hInv.price_pos
      · exact hInv.buys_pos
      · exact hInv.sells_pos
      · linarith
      · linarith
      · have := hInv.count_le
        rw [heq] at this
        simp only [List.length_cons] at this
        omega

end Dark

namespace Dark

/-- The generated buy rungs are already price-descending, so the JS sort
returns them unchanged. -/
theorem buildLadderGen_buys (a bs ss : ℚ) (n : ℕ) (ha : 0 ≤ a) (hbs : 0 ≤ bs) :
    (buildLadderGen a bs ss n).1
      = (List.range n).map
          (fun i => { price := a * (1 - bs * ((i : ℚ) + 1)), state := RungState.WAIT }) := by
  unfold buildLadderGen
  apply sortDescBy_of_sorted
  rw [List.pairwise_map]
  refine List.Pairwise.imp ?_ (List.pairwise_lt_range n)
  intro i j hij
  have hij' : (i : ℚ) + 1 ≤ (j : ℚ) + 1 := by
    have : (i : ℚ) ≤ (j : ℚ) := by exact_mod_cast le_of_lt hij
    linarith
  have hstep : bs * ((i : ℚ) + 1) ≤ bs * ((j : ℚ) + 1) := by
    apply mul_le_mul_of_nonneg_left hij' hbs
  have : 1 - bs * ((j : ℚ) + 1) ≤ 1 - bs * ((i : ℚ) + 1) := by linarith
  simpa using mul_le_mul_of_nonneg_left this ha

/-- The generated sell rungs are already price-ascending, so the JS sort
returns them unchanged. -/
theorem buildLadderGen_sells (a bs ss : ℚ) (n : ℕ) (ha : 0 ≤ a) (hss : 0 ≤ ss) :
    (buildLadderGen a bs ss n).2
      = (List.range n).map
          (fun i => { price := a * (1 + ss * ((i : ℚ) + 1)), state := RungState.WAIT }) := by
  unfold buildLadderGen
  apply sortAscBy_of_sorted
  rw [List.pairwise_map]
  refine List.Pairwise.imp ?_ (List.pairwise_lt_range n)
  intro i j hij
  have hij' : (i : ℚ) + 1 ≤ (j : ℚ) + 1 := by
    have : (i : ℚ) ≤ (j : ℚ) := by exact_mod_cast le_of_lt hij
    linarith
  have hstep : ss * ((i : ℚ) + 1) ≤ ss * ((j : ℚ) + 1) := by
    apply mul_le_mul_of_nonneg_left hij' hss
  have : 1 + ss * ((i : ℚ) + 1) ≤ 1 + ss * ((j : ℚ) + 1) := by linarith
  simpa using mul_le_mul_of_nonneg_left this ha

/-- Every buy rung of `buildLadder a` has a price in `(0, a)` when `0 < a`. -/
theorem buildLadder_buys_mem (a : ℚ) (ha : 0 < a) (r : Rung)
    (hr : r ∈ (buildLadder a).1) : 0 < r.price ∧ r.price < a := by
  unfold buildLadder at hr
  rw [buildLadderGen_buys a BUY_STEP_PCT SELL_STEP_PCT LEVELS_EACH_SIDE (le_of_lt ha)
    (by norm_num [BUY_STEP_PCT])] at hr
  rw [List.mem_map] at hr
  obtain ⟨i, hi, hri⟩ := hr
  rw [List.mem_range] at hi
  have hiq : (i : ℚ) ≤ 9 := by
    have : i ≤ 9 := by
      simpa [LEVELS_EACH_SIDE] using Nat.lt_succ_iff.mp (by simpa [LEVELS_EACH_SIDE] using hi)
    exact_mod_cast this
  have hiq0 : (0 : ℚ) ≤ (i : ℚ) := by positivity
  subst hri
  refine ⟨?_, ?_⟩
  · apply mul_pos ha
    rw [BUY_STEP_PCT]
    nlinarith
  · rw [BUY_STEP_PCT]
    nlinarith

/-- Every sell rung of `buildLadder a` has a price above `a` when `0 < a`. -/
theorem buildLadder_sells_mem (a : ℚ) (ha : 0 < a) (r : Rung)
    (hr : r ∈ (buildLadder a).2) : a < r.price := by
  unfold buildLadder at hr
  rw [buildLadderGen_sells a BUY_STEP_PCT SELL_STEP_PCT LEVELS_EACH_SIDE (le_of_lt ha)
    (by norm_num [SELL_STEP_PCT])] at hr
  rw [List.mem_map] at hr
  obtain ⟨i, hi, hri⟩ := hr
  have hiq0 : (0 : ℚ) ≤ (i : ℚ) := by positivity
  subst hri
  rw [SELL_STEP_PCT]
  nlinarith

/-- `ensureLadder` preserves the invariant. -/
theorem inv_ensureLadder (s : DarkState) (hInv : Inv s) : Inv (ensureLadder s) := by
  unfold ensureLadder
  split_ifs with h0 hb
  · exact hInv
  · rcases ha : s.anchor with _ | a
    · rw [ha] at h0
      simp at h0
    · have hapos : 0 < a := hInv.anchor_pos a ha
      constructor <;> simp only [ha, Option.getD_some]
      · exact hInv.usd_nonneg
      · exact hInv.pos_good
      · intro a1 h1
        simp only [Option.some.injEq] at h1
        exact h1 ▸ hapos
      · exact hInv.price_pos
      · intro r hr
        exact (buildLadder_buys_mem a hapos r hr).1
      · intro r hr
        exact lt_trans hapos (buildLadder_sells_mem a hapos r hr)
      · exact hInv.sol_eq
      · exact hInv.usd_eq
      · exact hInv.count_le
  · exact hInv

end Dark

namespace Dark

/-- BUY loop equation: a `FILLED` rung is skipped. -/
theorem buyFillLoop_cons_filled (now : ℤ) (p : ℚ) (r : Rung) (rest : List Rung)
    (s : DarkState) (h : r.state = RungState.FILLED) :
    buyFillLoop now p (r :: rest) s
      = (r :: (buyFillLoop now p rest s).1, (buyFillLoop now p rest s).2) := by
  rw [buyFillLoop, if_pos h]

/-- BUY loop equation: an untriggered rung is skipped. -/
theorem buyFillLoop_cons_skip (now : ℤ) (p : ℚ) (r : Rung) (rest : List Rung)
    (s : DarkState) (h1 : ¬ r.state = RungState.FILLED) (h2 : ¬ p ≤ r.price) :
    buyFillLoop now p (r :: rest) s
      = (r :: (buyFillLoop now p rest s).1, (buyFillLoop now p rest s).2) := by
  rw [buyFillLoop, if_neg h1, if_neg h2]

/-- BUY loop equation: a triggered rung whose BUY is accepted is marked
`FILLED` and the loop continues on the post-BUY state. -/
theorem buyFillLoop_cons_ok (now : ℤ) (p : ℚ) (r : Rung) (rest : List Rung)
    (s : DarkState) (h1 : ¬ r.state = RungState.FILLED) (h2 : p ≤ r.price)
    (hok : (placeBuyAtPrice now (r.price * (1 + SIM_SLIPPAGE_PCT)) none none false s).1 = true) :
    buyFillLoop now p (r :: rest) s
      = ({ r with state := RungState.FILLED } ::
          (buyFillLoop now p rest
            (placeBuyAtPrice now (r.price * (1 + SIM_SLIPPAGE_PCT)) none none false s).2).1,
         (buyFillLoop now p rest
            (placeBuyAtPrice now (r.price * (1 + SIM_SLIPPAGE_PCT)) none none false s).2).2) := by
  rw [buyFillLoop, if_neg h1, if_pos h2]
  dsimp only
  rw [if_pos hok]

/-- BUY loop equation: a triggered rung whose BUY is rejected stops the pass,
leaving it and all farther rungs unchanged. -/
theorem buyFillLoop_cons_fail (now : ℤ) (p : ℚ) (r : Rung) (rest : List Rung)
    (s : DarkState) (h1 : ¬ r.state = RungState.FILLED) (h2 : p ≤ r.price)
    (hok : (placeBuyAtPrice now (r.price * (1 + SIM_SLIPPAGE_PCT)) none none false s).1 = false) :
    buyFillLoop now p (r :: rest) s
      = (r :: rest,
         (placeBuyAtPrice now (r.price * (1 + SIM_SLIPPAGE_PCT)) none none false s).2) := by
  rw [buyFillLoop, if_neg h1, if_pos h2]
  dsimp only
  rw [hok]
  simp

/-- SELL loop equation: a `FILLED` rung is skipped. -/
theorem sellFillLoop_cons_filled (now : ℤ) (p : ℚ) (r : Rung) (rest : List Rung)
    (s : DarkState) (h : r.state = RungState.FILLED) :
    sellFillLoop now p (r :: rest) s
      = (r :: (sellFillLoop now p rest s).1, (sellFillLoop now p rest s).2) := by
  rw [sellFillLoop, if_pos h]

/-- SELL loop equation: an untriggered rung is skipped. -/
theorem sellFillLoop_cons_skip (now : ℤ) (p : ℚ) (r : Rung) (rest : List Rung)
    (s : DarkState) (h1 : ¬ r.state = RungState.FILLED) (h2 : ¬ r.price ≤ p) :
    sellFillLoop now p (r :: rest) s
      = (r :: (sellFillLoop now p rest s).1, (sellFillLoop now p rest s).2) := by
  rw [sellFillLoop, if_neg h1, if_neg h2]

/-- SELL loop equation: a triggered rung whose SELL is accepted is marked
`FILLED` and the loop continues on the post-SELL state. -/
theorem sellFillLoop_cons_ok (now : ℤ) (p : ℚ) (r : Rung) (rest : List Rung)
    (s : DarkState) (h1 : ¬ r.state = RungState.FILLED) (h2 : r.price ≤ p)
    (hok : (placeSellAtPrice now (r.price * (1 - SIM_SLIPPAGE_PCT)) s).1 = true) :
    sellFillLoop now p (r :: rest) s
      = ({ r with state := RungState.FILLED } ::
          (sellFillLoop now p rest
            (placeSellAtPrice now (r.price * (1 - SIM_SLIPPAGE_PCT)) s).2).1,
         (sellFillLoop now p rest
            (placeSellAtPrice now (r.price * (1 - SIM_SLIPPAGE_PCT)) s).2).2) := by
  rw [sellFillLoop, if_neg h1, if_pos h2]
  dsimp only
  rw [if_pos hok]

/-- SELL loop equation: a triggered rung whose SELL is rejected stops the
pass, leaving it and all farther rungs unchanged. -/
theorem sellFillLoop_cons_fail (now : ℤ) (p : ℚ) (r : Rung) (rest : List Rung)
    (s : DarkState) (h1 : ¬ r.state = RungState.FILLED) (h2 : r.price ≤ p)
    (hok : (placeSellAtPrice now (r.price * (1 - SIM_SLIPPAGE_PCT)) s).1 = false) :
    sellFillLoop now p (r :: rest) s
      = (r :: rest, (placeSellAtPrice now (r.price * (1 - SIM_SLIPPAGE_PCT)) s).2) := by
  rw [sellFillLoop, if_neg h1, if_pos h2]
  dsimp only
  rw [hok]
  simp

end Dark

namespace Dark

/-- The BUY loop never touches the anchor, the price or the ladder fields of
the state (those are only read, never written, by `placeBuyAtPrice`). -/
theorem buyFillLoop_frame (now : ℤ) (p : ℚ) (l : List Rung) (s : DarkState) :
    (buyFillLoop now p l s).2.anchor = s.anchor ∧
    (buyFillLoop now p l s).2.nowPrice = s.nowPrice ∧
    (buyFillLoop now p l s).2.ladderBuys = s.ladderBuys ∧
    (buyFillLoop now p l s).2.ladderSells = s.ladderSells := by
  induction l generalizing s with
  | nil => exact ⟨rfl, rfl, rfl, rfl⟩
  | cons r rest ih =>
    by_cases h1 : r.state = RungState.FILLED
    · rw [buyFillLoop_cons_filled now p r rest s h1]
      exact ih s
    · by_cases h2 : p ≤ r.price
      · rcases hok : (placeBuyAtPrice now (r.price * (1 + SIM_SLIPPAGE_PCT)) none none false s).1
          with _ | _
        · rw [buyFillLoop_cons_fail now p r rest s h1 h2 hok]
          exact placeBuyAtPrice_frame now (r.price * (1 + SIM_SLIPPAGE_PCT)) none none false s
        · rw [buyFillLoop_cons_ok now p r rest s h1 h2 hok]
          obtain ⟨f1, f2, f3, f4⟩ :=
            placeBuyAtPrice_frame now (r.price * (1 + SIM_SLIPPAGE_PCT)) none none false s
          obtain ⟨g1, g2, g3, g4⟩ :=
            ih (placeBuyAtPrice now (r.price * (1 + SIM_SLIPPAGE_PCT)) none none false s).2
          exact ⟨g1.trans f1, g2.trans f2, g3.trans f3, g4.trans f4⟩
      · rw [buyFillLoop_cons_skip now p r rest s h1 h2]
        exact ih s

/-- The BUY loop only toggles rung states; the rung prices are unchanged. -/
theorem buyFillLoop_prices (now : ℤ) (p : ℚ) (l : List Rung) (s : DarkState) :
    ((buyFillLoop now p l s).1).map Rung.price = l.map Rung.price := by
  induction l generalizing s with
  | nil => rfl
  | cons r rest ih =>
    by_cases h1 : r.state = RungState.FILLED
    · rw [buyFillLoop_cons_filled now p r rest s h1]
      simp [ih]
    · by_cases h2 : p ≤ r.price
      · rcases hok : (placeBuyAtPrice now (r.price * (1 + SIM_SLIPPAGE_PCT)) none none false s).1
          with _ | _
        · rw [buyFillLoop_cons_fail now p r rest s h1 h2 hok]
        · rw [buyFillLoop_cons_ok now p r rest s h1 h2 hok]
          simp [ih]
      · rw [buyFillLoop_cons_skip now p r rest s h1 h2]
        simp [ih]

/-- The BUY loop preserves the invariant when every rung price in the list
is positive. -/
theorem inv_buyFillLoop (now : ℤ) (p : ℚ) (l : List Rung) (s : DarkState)
    (hInv : Inv s) (hl : ∀ r ∈ l, 0 < r.price) :
    Inv (buyFillLoop now p l s).2 := by
  induction l generalizing s with
  | nil => exact hInv
  | cons r rest ih =>
    have hr : 0 < r.price := hl r (by simp)
    have hrest : ∀ r' ∈ rest, 0 < r'.price := fun r' hr' => hl r' (by simp [hr'])
    have hfp : 0 < r.price * (1 + SIM_SLIPPAGE_PCT) := by
      rw [SIM_SLIPPAGE_PCT]
      simpa using hr
    have hbuy := inv_placeBuyAtPrice now (r.price * (1 + SIM_SLIPPAGE_PCT)) none none false s
      hInv hfp (by norm_num [Option.getD, ORDER_NOTIONAL_USD])
    by_cases h1 : r.state = RungState.FILLED
    · rw [buyFillLoop_cons_filled now p r rest s h1]
      exact ih s hInv hrest
    · by_cases h2 : p ≤ r.price
      · rcases hok : (placeBuyAtPrice now (r.price * (1 + SIM_SLIPPAGE_PCT)) none none false s).1
          with _ | _
        · rw [buyFillLoop_cons_fail now p r rest s h1 h2 hok]
          exact hbuy
        · rw [buyFillLoop_cons_ok now p r rest s h1 h2 hok]
          exact ih _ hbuy hrest
      · rw [buyFillLoop_cons_skip now p r rest s h1 h2]
        exact ih s hInv hrest

/-- The SELL loop never touches the anchor, the price or the ladder fields. -/
theorem sellFillLoop_frame (now : ℤ) (p : ℚ) (l : List Rung) (s : DarkState) :
    (sellFillLoop now p l s).2.anchor = s.anchor ∧
    (sellFillLoop now p l s).2.nowPrice = s.nowPrice ∧
    (sellFillLoop now p l s).2.ladderBuys = s.ladderBuys ∧
    (sellFillLoop now p l s).2.ladderSells = s.ladderSells := by
  induction l generalizing s with
  | nil => exact ⟨rfl, rfl, rfl, rfl⟩
  | cons r rest ih =>
    by_cases h1 : r.state = RungState.FILLED
    · rw [sellFillLoop_cons_filled now p r rest s h1]
      exact ih s
    · by_cases h2 : r.price ≤ p
      · rcases hok : (placeSellAtPrice now (r.price * (1 - SIM_SLIPPAGE_PCT)) s).1 with _ | _
        · rw [sellFillLoop_cons_fail now p r rest s h1 h2 hok]
          exact placeSellAtPrice_frame now (r.price * (1 - SIM_SLIPPAGE_PCT)) s
        · rw [sellFillLoop_cons_ok now p r rest s h1 h2 hok]
          obtain ⟨f1, f2, f3, f4⟩ :=
            placeSellAtPrice_frame now (r.price * (1 - SIM_SLIPPAGE_PCT)) s
          obtain ⟨g1, g2, g3, g4⟩ :=
            ih (placeSellAtPrice now (r.price * (1 - SIM_SLIPPAGE_PCT)) s).2
          exact ⟨g1.trans f1, g2.trans f2, g3.trans f3, g4.trans f4⟩
      · rw [sellFillLoop_cons_skip now p r rest s h1 h2]
        exact ih s

/-- The SELL loop only toggles rung states; the rung prices are unchanged. -/
theorem sellFillLoop_prices (now : ℤ) (p : ℚ) (l : List Rung) (s : DarkState) :
    ((sellFillLoop now p l s).1).map Rung.price = l.map Rung.price := by
  induction l generalizing s with
  | nil => rfl
  | cons r rest ih =>
    by_cases h1 : r.state = RungState.FILLED
    · rw [sellFillLoop_cons_filled now p r rest s h1]
      simp [ih]
    · by_cases h2 : r.price ≤ p
      · rcases hok : (placeSellAtPrice now (r.price * (1 - SIM_SLIPPAGE_PCT)) s).1 with _ | _
        · rw [sellFillLoop_cons_fail now p r rest s h1 h2 hok]
        · rw [sellFillLoop_cons_ok now p r rest s h1 h2 hok]
          simp [ih]
      · rw [sellFillLoop_cons_skip now p r rest s h1 h2]
        simp [ih]

/-- The SELL loop preserves the invariant when every rung price in the list
is non-negative. -/
theorem inv_sellFillLoop (now : ℤ) (p : ℚ) (l : List Rung) (s : DarkState)
    (hInv : Inv s) (hl : ∀ r ∈ l, 0 ≤ r.price) :
    Inv (sellFillLoop now p l s).2 := by
  induction l generalizing s with
  | nil => exact hInv
  | cons r rest ih =>
    have hr : 0 ≤ r.price := hl r (by simp)
    have hrest : ∀ r' ∈ rest, 0 ≤ r'.price := fun r' hr' => hl r' (by simp [hr'])
    have hfp : 0 ≤ r.price * (1 - SIM_SLIPPAGE_PCT) := by
      rw [SIM_SLIPPAGE_PCT]
      simpa using hr
    have hsell := inv_placeSellAtPrice now (r.price * (1 - SIM_SLIPPAGE_PCT)) s hInv hfp
    by_cases h1 : r.state = RungState.FILLED
    · rw [sellFillLoop_cons_filled now p r rest s h1]
      exact ih s hInv hrest
    · by_cases h2 : r.price ≤ p
      · rcases hok : (placeSellAtPrice now (r.price * (1 - SIM_SLIPPAGE_PCT)) s).1 with _ | _
        · rw [sellFillLoop_cons_fail now p r rest s h1 h2 hok]
          exact hsell
        · rw [sellFillLoop_cons_ok now p r rest s h1 h2 hok]
          exact ih _ hsell hrest
      · rw [sellFillLoop_cons_skip now p r rest s h1 h2]
        exact ih s hInv hrest

end Dark

namespace Dark

/-- `simulateFills` preserves the invariant. -/
theorem inv_simulateFills (now : ℤ) (s : DarkState) (hInv : Inv s) :
    Inv (simulateFills now s) := by
  unfold simulateFills
  split_ifs with h0
  · exact hInv
  · dsimp only
    have hInv0 : Inv (ensureLadder s) := inv_ensureLadder s hInv
    set s0 := ensureLadder s with hs0
    set p := s0.nowPrice.getD 0 with hp
    have hInvB : Inv (buyFillLoop now p s0.ladderBuys s0).2 :=
      inv_buyFillLoop now p s0.ladderBuys s0 hInv0 hInv0.buys_pos
    obtain ⟨bf1, bf2, bf3, bf4⟩ := buyFillLoop_frame now p s0.ladderBuys s0
    set rb := buyFillLoop now p s0.ladderBuys s0 with hrb
    have hInv1 : Inv { rb.2 with ladderBuys := rb.1 } := by
      constructor
      · exact hInvB.usd_nonneg
      · exact hInvB.pos_good
      · exact hInvB.anchor_pos
      · exact hInvB.price_pos
      · intro r hr
        dsimp only at hr
        have hmem : r.price ∈ (rb.1.map Rung.price) := List.mem_map_of_mem Rung.price hr
        rw [hrb, buyFillLoop_prices] at hmem
        obtain ⟨r', hr', hpr⟩ := List.mem_map.mp hmem
        exact hpr ▸ hInv0.buys_pos r' hr'
      · intro r hr
        dsimp only at hr
        apply hInvB.sells_pos
        rw [show rb.2.ladderSells = s0.ladderSells from bf4] at hr
        rw [bf4]
        exact hr
      · exact hInvB.sol_eq
      · exact hInvB.usd_eq
      · exact hInvB.count_le
    set s1 : DarkState := { rb.2 with ladderBuys := rb.1 } with hs1
    have hInvS : Inv (sellFillLoop now p s1.ladderSells s1).2 :=
      inv_sellFillLoop now p s1.ladderSells s1 hInv1
        (fun r hr => le_of_lt (hInv1.sells_pos r hr))
    obtain ⟨sf1, sf2, sf3, sf4⟩ := sellFillLoop_frame now p s1.ladderSells s1
    set rs := sellFillLoop now p s1.ladderSells s1 with hrs
    constructor
    · exact hInvS.usd_nonneg
    · exact hInvS.pos_good
    · exact hInvS.anchor_pos
    · exact hInvS.price_pos
    · intro r hr
      dsimp only at hr
      apply hInvS.buys_pos
      rw [sf3] at hr
      rw [sf3]
      exact hr
    · intro r hr
      dsimp only at hr
      have hmem : r.price ∈ (rs.1.map Rung.price) := List.mem_map_of_mem Rung.price hr
      rw [hrs, sellFillLoop_prices] at hmem
      obtain ⟨r', hr', hpr⟩ := List.mem_map.mp hmem
      exact hpr ▸ hInv1.sells_pos r' hr'
    · exact hInvS.sol_eq
    · exact hInvS.usd_eq
    · exact hInvS.count_le

/-- `runMicroSeedOnce` preserves the invariant. -/
theorem inv_runMicroSeedOnce (now : ℤ) (s : DarkState) (hInv : Inv s) :
    Inv (runMicroSeedOnce now s) := by
  unfold runMicroSeedOnce
  rw [if_neg (by norm_num [MICRO_SEED_USD])]
  rcases hnp : s.nowPrice with _ | np
  · exact hInv
  · rcases hanc : s.anchor with _ | a
    · exact hInv
    · simp only []
      have hpos : 0 < np := hInv.price_pos np hnp
      split_ifs with hsol hopen
      · exact hInv
      · exact hInv
      · apply inv_placeBuyAtPrice _ _ _ _ _ _ hInv
        · rw [SIM_SLIPPAGE_PCT]
          simpa using hpos
        · norm_num [Option.getD, MICRO_SEED_USD]

/-- `tickWith` preserves the invariant for any positive fetched price. -/
theorem inv_tickWith (price : ℚ) (src : String) (now : ℤ) (s : DarkState)
    (hInv : Inv s) (hp : 0 < price) : Inv (tickWith price src now s) := by
  unfold tickWith
  apply inv_simulateFills
  have hInv0 : Inv { s with nowPrice := some price, priceSource := src,
                            lastTickAt := now, lastPriceError := "" } := by
    constructor
    · exact hInv.usd_nonneg
    · exact hInv.pos_good
    · exact hInv.anchor_pos
    · intro p1 h1
      simp only [Option.some.injEq] at h1
      exact h1 ▸ hp
    · exact hInv.buys_pos
    · exact hInv.sells_pos
    · exact hInv.sol_eq
    · exact hInv.usd_eq
    · exact hInv.count_le
  split_ifs with hanc
  · apply inv_runMicroSeedOnce
    constructor
    · exact hInv0.usd_nonneg
    · exact hInv0.pos_good
    · intro a1 h1
      simp only [Option.some.injEq] at h1
      exact h1 ▸ hp
    · exact hInv0.price_pos
    · intro r hr
      dsimp only at hr
      exact (buildLadder_buys_mem price hp r hr).1
    · intro r hr
      dsimp only at hr
      exact lt_trans hp (buildLadder_sells_mem price hp r hr)
    · exact hInv0.sol_eq
    · exact hInv0.usd_eq
    · exact hInv0.count_le
  · exact hInv0

/-- The invariant holds at process start. -/
theorem inv_startState : Inv startState := by
  constructor <;>
    simp [startState, START_USD, START_SOL, BUY_PACKETS]

/-- Every reachable state satisfies the invariant. -/
theorem inv_reachable (s : DarkState) (h : Reachable s) : Inv s := by
  induction h with
  | refl => exact inv_startState
  | tail hsteps hstep ih =>
    cases hstep with
    | tick price src now hp => exact inv_tickWith price src now _ ih hp
    | buy now fp co note ms hfp hco =>
      exact inv_placeBuyAtPrice now fp co note ms _ ih hfp hco
    | sell now fp hfp => exact inv_placeSellAtPrice now fp _ ih (le_of_lt hfp)
    | fills now => exact inv_simulateFills now _ ih
    | seed now => exact inv_runMicroSeedOnce now _ ih

end Dark

namespace Dark

@[simp] theorem recomputeAvgEntry_trades (s : DarkState) :
    (recomputeAvgEntry s).trades = s.trades := by
  unfold recomputeAvgEntry
  split_ifs <;> rfl

/-- The explicit result of an accepted SELL. -/
theorem placeSellAtPrice_eq_accepted (now : ℤ) (fp : ℚ) (s : DarkState)
    (pos : Position) (rest : List Position) (heq : s.openPositions = pos :: rest)
    (hsol : ¬ s.balances.sol < pos.qtySol) :
    placeSellAtPrice now fp s =
      (true, recomputeAvgEntry (recordTrade
        { ts := now, side := Side.SELL, price := fp, qtySol := pos.qtySol,
          pnlUsd := some (pos.qtySol * fp - pos.costUsd),
          note := if pos.microSeed then some "CLOSE_MICRO_SEED" else none }
        { s with
          balances := { usd := s.balances.usd + pos.qtySol * fp,
                        sol := s.balances.sol - pos.qtySol },
          openPositions := rest,
          stats := { s.stats with
            realizedPnlUsd := s.stats.realizedPnlUsd + (pos.qtySol * fp - pos.costUsd),
            trades := s.stats.trades + 1, sells := s.stats.sells + 1 } })) := by
  simp only [placeSellAtPrice, heq, hsol, if_false]

/-- The observable effects of one accepted SELL: it closes exactly the head
(oldest) position. -/
theorem placeSellAtPrice_step (now : ℤ) (fp : ℚ) (s : DarkState)
    (pos : Position) (rest : List Position) (heq : s.openPositions = pos :: rest)
    (hsol : ¬ s.balances.sol < pos.qtySol) :
    (placeSellAtPrice now fp s).1 = true ∧
    (placeSellAtPrice now fp s).2.openPositions = rest ∧
    (placeSellAtPrice now fp s).2.balances.sol = s.balances.sol - pos.qtySol ∧
    (placeSellAtPrice now fp s).2.balances.usd = s.balances.usd + pos.qtySol * fp ∧
    (placeSellAtPrice now fp s).2.stats.realizedPnlUsd
      = s.stats.realizedPnlUsd + (pos.qtySol * fp - pos.costUsd) ∧
    (placeSellAtPrice now fp s).2.trades.head?
      = some { ts := now, side := Side.SELL, price := fp, qtySol := pos.qtySol,
               pnlUsd := some (pos.qtySol * fp - pos.costUsd),
               note := if pos.microSeed then some "CLOSE_MICRO_SEED" else none } := by
  rw [placeSellAtPrice_eq_accepted now fp s pos rest heq hsol]
  refine ⟨rfl, by simp, by simp, by simp, by simp, ?_⟩
  simp only [recomputeAvgEntry_trades, recordTrade]
  rw [show (10 : ℕ) = 9 + 1 from rfl, List.take_succ_cons, List.head?_cons]

/-- Unrealised PnL decomposes over the exact-cost positions. -/
theorem unrealized_sum (m : ℚ) (l : List Position)
    (h : ∀ pos ∈ l, pos.costUsd = pos.entryPrice * pos.qtySol) :
    (l.map (fun pos => (m - pos.entryPrice) * pos.qtySol)).sum
      = m * (l.map Position.qtySol).sum - (l.map Position.costUsd).sum := by
  induction l with
  | nil => simp
  | cons pos rest ih =>
    simp only [List.map_cons, List.sum_cons]
    rw [ih (fun q hq => h q (by simp [hq]))]
    have hc := h pos (by simp)
    linear_combination hc

end Dark

/-! ### Claim theorems -/

/-- C1: in every reachable dark-ladder engine state the number of open
positions never exceeds `BUY_PACKETS`, and every accepted BUY fill attempt
(any `placeBuyAtPrice` call, covering the `simulateFills` rung fills and the
micro-seed) requires `openCount + 1 ≤ SELL_PACKETS` to have held before the
fill, so no accepted BUY ever leaves `openCount > SELL_PACKETS`. -/
theorem c1_capacity_guard (s : Dark.DarkState) (hs : Dark.Reachable s) :
    Dark.openCount s ≤ Dark.BUY_PACKETS ∧
    Dark.openCount s ≤ Dark.SELL_PACKETS ∧
    ∀ (now : ℤ) (fp : ℚ) (co : Option ℚ) (note : Option String) (ms : Bool),
      (Dark.placeBuyAtPrice now fp co note ms s).1 = true →
        Dark.openCount s + 1 ≤ Dark.SELL_PACKETS ∧
        Dark.openCount (Dark.placeBuyAtPrice now fp co note ms s).2 ≤ Dark.SELL_PACKETS := by
  have hInv := Dark.inv_reachable s hs
  refine ⟨hInv.count_le, ?_, ?_⟩
  · exact le_trans hInv.count_le (by norm_num [Dark.BUY_PACKETS, Dark.SELL_PACKETS])
  · intro now fp co note ms hacc
    obtain ⟨-, hcnt, hguard, hpos⟩ := Dark.placeBuyAtPrice_accepted now fp co note ms s hacc
    have hg : Dark.openCount s + 1 ≤ Dark.SELL_PACKETS := by
      unfold Dark.guardBlocksBuyNext at hguard
      simp only [decide_eq_false_iff_not, not_lt] at hguard
      exact hguard
    refine ⟨hg, ?_⟩
    unfold Dark.openCount at hg ⊢
    rw [hpos]
    simp only [List.length_append, List.length_singleton]
    omega

/-- Witness for C1 at the start state, together with an accepted BUY at
price 100. -/
theorem c1_capacity_guard_witness :
    Dark.openCount Dark.startState ≤ Dark.BUY_PACKETS ∧
    Dark.openCount Dark.startState + 1 ≤ Dark.SELL_PACKETS ∧
    Dark.openCount (Dark.placeBuyAtPrice 0 100 none none false Dark.startState).2
      ≤ Dark.SELL_PACKETS := by
  have h := c1_capacity_guard Dark.startState Relation.ReflTransGen.refl
  have hb := h.2.2 0 100 none none false (by decide)
  exact ⟨h.1, hb.1, hb.2⟩

/-- C2: in every reachable dark-ladder state `cash ≥ 0` and `assetQty ≥ 0`,
and a rejected BUY or SELL fill leaves the whole state — balances, the open
position list and all stats — exactly as it was (atomic rejection). -/
theorem c2_balances_nonneg_atomic (s : Dark.DarkState) (hs : Dark.Reachable s) :
    0 ≤ s.balances.usd ∧ 0 ≤ s.balances.sol ∧
    (∀ (now : ℤ) (fp : ℚ) (co : Option ℚ) (note : Option String) (ms : Bool),
      (Dark.placeBuyAtPrice now fp co note ms s).1 = false →
        (Dark.placeBuyAtPrice now fp co note ms s).2 = s) ∧
    (∀ (now : ℤ) (fp : ℚ),
      (Dark.placeSellAtPrice now fp s).1 = false →
        (Dark.placeSellAtPrice now fp s).2 = s) := by
  have hInv := Dark.inv_reachable s hs
  refine ⟨hInv.usd_nonneg, ?_, ?_, ?_⟩
  · rw [hInv.sol_eq]
    apply List.sum_nonneg
    intro x hx
    obtain ⟨pos, hpos, hx⟩ := List.mem_map.mp hx
    exact hx ▸ le_of_lt (hInv.pos_good pos hpos).2.1
  · intro now fp co note ms h
    exact Dark.placeBuyAtPrice_rejected now fp co note ms s h
  · intro now fp h
    exact Dark.placeSellAtPrice_rejected now fp s h

/-- Witness for C2 at the start state, with a concretely rejected SELL
(no open position) leaving the state unchanged. -/
theorem c2_balances_nonneg_atomic_witness :
    0 ≤ Dark.startState.balances.usd ∧ 0 ≤ Dark.startState.balances.sol ∧
    (Dark.placeSellAtPrice 0 50 Dark.startState).2 = Dark.startState := by
  have h := c2_balances_nonneg_atomic Dark.startState Relation.ReflTransGen.refl
  exact ⟨h.1, h.2.1, h.2.2.2 0 50 (by decide)⟩

/-- C4: SELL fills close open positions strictly in FIFO insertion order:
with `P1, P2, P3` the three oldest open positions, three consecutive
accepted SELL fills (at arbitrary fill prices `f1, f2, f3`, whatever sell
level triggered them) close exactly `P1`, then `P2`, then `P3`, whatever
their entry prices. -/
theorem c4_fifo_closing (s : Dark.DarkState) (P1 P2 P3 : Dark.Position)
    (rest : List Dark.Position)
    (heq : s.openPositions = P1 :: P2 :: P3 :: rest)
    (hq2 : 0 ≤ P2.qtySol) (hq3 : 0 ≤ P3.qtySol)
    (hsol : P1.qtySol + P2.qtySol + P3.qtySol ≤ s.balances.sol)
    (f1 f2 f3 : ℚ) (n1 n2 n3 : ℤ) :
    (Dark.placeSellAtPrice n1 f1 s).1 = true ∧
    (Dark.placeSellAtPrice n2 f2 (Dark.placeSellAtPrice n1 f1 s).2).1 = true ∧
    (Dark.placeSellAtPrice n3 f3
      (Dark.placeSellAtPrice n2 f2 (Dark.placeSellAtPrice n1 f1 s).2).2).1 = true ∧
    (Dark.placeSellAtPrice n1 f1 s).2.openPositions = P2 :: P3 :: rest ∧
    (Dark.placeSellAtPrice n2 f2 (Dark.placeSellAtPrice n1 f1 s).2).2.openPositions
      = P3 :: rest ∧
    (Dark.placeSellAtPrice n3 f3
      (Dark.placeSellAtPrice n2 f2 (Dark.placeSellAtPrice n1 f1 s).2).2).2.openPositions
      = rest ∧
    (Dark.placeSellAtPrice n1 f1 s).2.trades.head?
      = some { ts := n1, side := Side.SELL, price := f1, qtySol := P1.qtySol,
               pnlUsd := some (P1.qtySol * f1 - P1.costUsd),
               note := if P1.microSeed then some "CLOSE_MICRO_SEED" else none } ∧
    (Dark.placeSellAtPrice n2 f2 (Dark.placeSellAtPrice n1 f1 s).2).2.trades.head?
      = some { ts := n2, side := Side.SELL, price := f2, qtySol := P2.qtySol,
               pnlUsd := some (P2.qtySol * f2 - P2.costUsd),
               note := if P2.microSeed then some "CLOSE_MICRO_SEED" else none } ∧
    (Dark.placeSellAtPrice n3 f3
      (Dark.placeSellAtPrice n2 f2 (Dark.placeSellAtPrice n1 f1 s).2).2).2.trades.head?
      = some { ts := n3, side := Side.SELL, price := f3, qtySol := P3.qtySol,
               pnlUsd := some (P3.qtySol * f3 - P3.costUsd),
               note := if P3.microSeed then some "CLOSE_MICRO_SEED" else none } := by
  have hs1 : ¬ s.balances.sol < P1.qtySol := by
    push_neg
    linarith
  obtain ⟨ha1, ho1, hsol1, husd1, hr1, ht1⟩ :=
    Dark.placeSellAtPrice_step n1 f1 s P1 (P2 :: P3 :: rest) heq hs1
  have hs2 : ¬ (Dark.placeSellAtPrice n1 f1 s).2.balances.sol < P2.qtySol := by
    rw [hsol1]
    push_neg
    linarith
  obtain ⟨ha2, ho2, hsol2, husd2, hr2, ht2⟩ :=
    Dark.placeSellAtPrice_step n2 f2 (Dark.placeSellAtPrice n1 f1 s).2
      P2 (P3 :: rest) ho1 hs2
  have hs3 : ¬ (Dark.placeSellAtPrice n2 f2
      (Dark.placeSellAtPrice n1 f1 s).2).2.balances.sol < P3.qtySol := by
    rw [hsol2, hsol1]
    push_neg
    linarith
  obtain ⟨ha3, ho3, hsol3, husd3, hr3, ht3⟩ :=
    Dark.placeSellAtPrice_step n3 f3
      (Dark.placeSellAtPrice n2 f2 (Dark.placeSellAtPrice n1 f1 s).2).2
      P3 rest ho2 hs3
  exact ⟨ha1, ha2, ha3, ho1, ho2, ho3, ht1, ht2, ht3⟩

/-- Witness for C4 on a concrete state with three open positions of distinct
entry prices, sold at fill prices 15, 16 and 17. -/
theorem c4_fifo_closing_witness :
    (Dark.placeSellAtPrice 7 15 Dark.fifoState).1 = true ∧
    (Dark.placeSellAtPrice 8 16 (Dark.placeSellAtPrice 7 15 Dark.fifoState).2).1 = true ∧
    (Dark.placeSellAtPrice 9 17
      (Dark.placeSellAtPrice 8 16 (Dark.placeSellAtPrice 7 15 Dark.fifoState).2).2).1 = true ∧
    (Dark.placeSellAtPrice 7 15 Dark.fifoState).2.openPositions
      = [{ id := 2, entryPrice := 20, qtySol := 2, costUsd := 40,
           openedAt := 2, microSeed := false },
         { id := 3, entryPrice := 30, qtySol := 3, costUsd := 90,
           openedAt := 3, microSeed := false }] ∧
    (Dark.placeSellAtPrice 9 17
      (Dark.placeSellAtPrice 8 16 (Dark.placeSellAtPrice 7 15 Dark.fifoState).2).2).2.openPositions
      = [] := by
  have h := c4_fifo_closing Dark.fifoState
    { id := 1, entryPrice := 10, qtySol := 1, costUsd := 10, openedAt := 1, microSeed := false }
    { id := 2, entryPrice := 20, qtySol := 2, costUsd := 40, openedAt := 2, microSeed := false }
    { id := 3, entryPrice := 30, qtySol := 3, costUsd := 90, openedAt := 3, microSeed := false }
    [] (by decide) (by norm_num) (by norm_num) (by norm_num [Dark.fifoState, Dark.startState])
    15 16 17 7 8 9
  exact ⟨h.1, h.2.1, h.2.2.1, h.2.2.2.1, h.2.2.2.2.2.1⟩

/-- C5: in every reachable dark-ladder state, for every mark price `m`,
`cash + assetQty * m = startCash + startAsset * m + realizedPnl +
unrealizedPnl(m)` exactly (over exact rational arithmetic), and when `m` is
the current price this value is exactly `portfolioValueUsd`. -/
theorem c5_pnl_identity (s : Dark.DarkState) (hs : Dark.Reachable s) (m : ℚ) :
    s.balances.usd + s.balances.sol * m
      = Dark.START_USD + Dark.START_SOL * m + s.stats.realizedPnlUsd
          + Dark.unrealizedPnl m s ∧
    (s.nowPrice = some m →
      Dark.portfolioValueUsd s
        = some (Dark.START_USD + Dark.START_SOL * m + s.stats.realizedPnlUsd
            + Dark.unrealizedPnl m s)) := by
  have hInv := Dark.inv_reachable s hs
  have hmain : s.balances.usd + s.balances.sol * m
      = Dark.START_USD + Dark.START_SOL * m + s.stats.realizedPnlUsd
          + Dark.unrealizedPnl m s := by
    have hsum := Dark.unrealized_sum m s.openPositions
      (fun pos hpos => (hInv.pos_good pos hpos).2.2)
    unfold Dark.unrealizedPnl
    rw [hsum, hInv.usd_eq, hInv.sol_eq, Dark.START_SOL]
    ring
  refine ⟨hmain, fun hnp => ?_⟩
  unfold Dark.portfolioValueUsd
  rw [hnp]
  simp only [Option.map_some']
  exact congrArg some hmain

/-- Witness for C5 at the start state with mark price 3. -/
theorem c5_pnl_identity_witness :
    Dark.startState.balances.usd + Dark.startState.balances.sol * 3
      = Dark.START_USD + Dark.START_SOL * 3 + Dark.startState.stats.realizedPnlUsd
          + Dark.unrealizedPnl 3 Dark.startState :=
  (c5_pnl_identity Dark.startState Relation.ReflTransGen.refl 3).1

theorem insertDescBy_length {α : Type} (key : α → ℚ) (x : α) (l : List α) :
    (insertDescBy key x l).length = l.length + 1 := by
  induction l with
  | nil => rfl
  | cons y ys ih =>
    rw [insertDescBy]
    split_ifs <;> simp [ih]

theorem sortDescBy_length {α : Type} (key : α → ℚ) (l : List α) :
    (sortDescBy key l).length = l.length := by
  induction l with
  | nil => rfl
  | cons x xs ih => rw [sortDescBy, insertDescBy_length, ih, List.length_cons]

theorem insertAscBy_length {α : Type} (key : α → ℚ) (x : α) (l : List α) :
    (insertAscBy key x l).length = l.length + 1 := by
  induction l with
  | nil => rfl
  | cons y ys ih =>
    rw [insertAscBy]
    split_ifs <;> simp [ih]

theorem sortAscBy_length {α : Type} (key : α → ℚ) (l : List α) :
    (sortAscBy key l).length = l.length := by
  induction l with
  | nil => rfl
  | cons x xs ih => rw [sortAscBy, insertAscBy_length, ih, List.length_cons]

namespace Dark

/-- Both sides of the generalised ladder have exactly `n` rungs. -/
theorem buildLadderGen_lengths (a bs ss : ℚ) (n : ℕ) :
    (buildLadderGen a bs ss n).1.length = n ∧ (buildLadderGen a bs ss n).2.length = n := by
  unfold buildLadderGen
  constructor
  · rw [sortDescBy_length, List.length_map, List.length_range]
  · rw [sortAscBy_length, List.length_map, List.length_range]

end Dark

/-- C7: for every anchor `a > 0`, buy/sell step percentages `> 0` and number
of levels `n ≥ 1`, the ladder builder (the source's `buildLadder` loop with
its constants generalised to the spec's `build(anchor, buyStepPct,
sellStepPct, levelsPerSide)` parameters) returns the buy list ordered
closest-to-anchor first with strictly decreasing prices all below the
anchor, and the sell list ordered closest-to-anchor first with strictly
increasing prices all above the anchor; rung `i` (0-based) has price
`a*(1 - bs*(i+1))` resp. `a*(1 + ss*(i+1))`, and `buildLadder` is the
instance at the source's constants. -/
theorem c7_ladder_monotonic (a bs ss : ℚ) (n : ℕ)
    (ha : 0 < a) (hbs : 0 < bs) (hss : 0 < ss) (hn : 1 ≤ n) :
    (Dark.buildLadderGen a bs ss n).1
      = (List.range n).map
          (fun i => { price := a * (1 - bs * ((i : ℚ) + 1)),
                      state := Dark.RungState.WAIT }) ∧
    (Dark.buildLadderGen a bs ss n).2
      = (List.range n).map
          (fun i => { price := a * (1 + ss * ((i : ℚ) + 1)),
                      state := Dark.RungState.WAIT }) ∧
    (Dark.buildLadderGen a bs ss n).1.length = n ∧
    (Dark.buildLadderGen a bs ss n).2.length = n ∧
    List.Pairwise (fun r r' => r'.price < r.price) (Dark.buildLadderGen a bs ss n).1 ∧
    List.Pairwise (fun r r' => r.price < r'.price) (Dark.buildLadderGen a bs ss n).2 ∧
    (∀ r ∈ (Dark.buildLadderGen a bs ss n).1, r.price < a) ∧
    (∀ r ∈ (Dark.buildLadderGen a bs ss n).2, a < r.price) ∧
    Dark.buildLadder a
      = Dark.buildLadderGen a Dark.BUY_STEP_PCT Dark.SELL_STEP_PCT Dark.LEVELS_EACH_SIDE := by
  have hbuys := Dark.buildLadderGen_buys a bs ss n (le_of_lt ha) (le_of_lt hbs)
  have hsells := Dark.buildLadderGen_sells a bs ss n (le_of_lt ha) (le_of_lt hss)
  obtain ⟨hlb, hls⟩ := Dark.buildLadderGen_lengths a bs ss n
  refine ⟨hbuys, hsells, hlb, hls, ?_, ?_, ?_, ?_, rfl⟩
  · rw [hbuys, List.pairwise_map]
    refine List.Pairwise.imp ?_ (List.pairwise_lt_range n)
    intro i j hij
    have hij' : (i : ℚ) + 1 < (j : ℚ) + 1 := by
      have : (i : ℚ) < (j : ℚ) := by exact_mod_cast hij
      linarith
    have hstep : bs * ((i : ℚ) + 1) < bs * ((j : ℚ) + 1) := by
      exact mul_lt_mul_of_pos_left hij' hbs
    show a * (1 - bs * ((j : ℚ) + 1)) < a * (1 - bs * ((i : ℚ) + 1))
    have : 1 - bs * ((j : ℚ) + 1) < 1 - bs * ((i : ℚ) + 1) := by linarith
    exact mul_lt_mul_of_pos_left this ha
  · rw [hsells, List.pairwise_map]
    refine List.Pairwise.imp ?_ (List.pairwise_lt_range n)
    intro i j hij
    have hij' : (i : ℚ) + 1 < (j : ℚ) + 1 := by
      have : (i : ℚ) < (j : ℚ) := by exact_mod_cast hij
      linarith
    have hstep : ss * ((i : ℚ) + 1) < ss * ((j : ℚ) + 1) := by
      exact mul_lt_mul_of_pos_left hij' hss
    show a * (1 + ss * ((i : ℚ) + 1)) < a * (1 + ss * ((j : ℚ) + 1))
    have : 1 + ss * ((i : ℚ) + 1) < 1 + ss * ((j : ℚ) + 1) := by linarith
    exact mul_lt_mul_of_pos_left this ha
  · intro r hr
    rw [hbuys, List.mem_map] at hr
    obtain ⟨i, -, hri⟩ := hr
    subst hri
    have hiq0 : (0 : ℚ) ≤ (i : ℚ) := by positivity
    show a * (1 - bs * ((i : ℚ) + 1)) < a
    nlinarith [mul_pos (mul_pos ha hbs) (show (0 : ℚ) < (i : ℚ) + 1 by linarith)]
  · intro r hr
    rw [hsells, List.mem_map] at hr
    obtain ⟨i, -, hri⟩ := hr
    subst hri
    have hiq0 : (0 : ℚ) ≤ (i : ℚ) := by positivity
    show a < a * (1 + ss * ((i : ℚ) + 1))
    nlinarith [mul_pos (mul_pos ha hss) (show (0 : ℚ) < (i : ℚ) + 1 by linarith)]

/-- Witness for C7 at anchor 200, buy step 1%, sell step 2%, two levels. -/
theorem c7_ladder_monotonic_witness :
    (Dark.buildLadderGen 200 (1 / 100) (2 / 100) 2).1
      = (List.range 2).map
          (fun i => { price := 200 * (1 - (1 / 100) * ((i : ℚ) + 1)),
                      state := Dark.RungState.WAIT }) ∧
    (∀ r ∈ (Dark.buildLadderGen 200 (1 / 100) (2 / 100) 2).1, r.price < 200) ∧
    (∀ r ∈ (Dark.buildLadderGen 200 (1 / 100) (2 / 100) 2).2, (200 : ℚ) < r.price) := by
  have h := c7_ladder_monotonic 200 (1 / 100) (2 / 100) 2
    (by norm_num) (by norm_num) (by norm_num) (by norm_num)
  exact ⟨h.1, h.2.2.2.2.2.2.1, h.2.2.2.2.2.2.2.1⟩

namespace Dark

/-- When the price sits above every buy rung, the BUY pass does nothing. -/
theorem buyFillLoop_no_trigger (now : ℤ) (p : ℚ) (l : List Rung) (s : DarkState)
    (h : ∀ r ∈ l, r.price < p) : buyFillLoop now p l s = (l, s) := by
  induction l with
  | nil => rfl
  | cons r rest ih =>
    have hr : r.price < p := h r (by simp)
    have hrest : ∀ r' ∈ rest, r'.price < p := fun r' hr' => h r' (by simp [hr'])
    by_cases h1 : r.state = RungState.FILLED
    · rw [buyFillLoop_cons_filled now p r rest s h1, ih hrest]
    · rw [buyFillLoop_cons_skip now p r rest s h1 (by linarith), ih hrest]

/-- When the price sits below every sell rung, the SELL pass does nothing. -/
theorem sellFillLoop_no_trigger (now : ℤ) (p : ℚ) (l : List Rung) (s : DarkState)
    (h : ∀ r ∈ l, p < r.price) : sellFillLoop now p l s = (l, s) := by
  induction l with
  | nil => rfl
  | cons r rest ih =>
    have hr : p < r.price := h r (by simp)
    have hrest : ∀ r' ∈ rest, p < r'.price := fun r' hr' => h r' (by simp [hr'])
    by_cases h1 : r.state = RungState.FILLED
    · rw [sellFillLoop_cons_filled now p r rest s h1, ih hrest]
    · rw [sellFillLoop_cons_skip now p r rest s h1 (by linarith), ih hrest]

/-- `simulateFills` is the identity when the current price triggers no rung
on either side. -/
theorem simulateFills_no_trigger (now : ℤ) (s : DarkState) (p a : ℚ)
    (hn : s.nowPrice = some p) (hp : p ≠ 0) (ha : s.anchor = some a) (ha0 : a ≠ 0)
    (hbne : s.ladderBuys ≠ []) (hsne : s.ladderSells ≠ [])
    (hb : ∀ r ∈ s.ladderBuys, r.price < p) (hs : ∀ r ∈ s.ladderSells, p < r.price) :
    simulateFills now s = s := by
  have hens : ensureLadder s = s := by
    unfold ensureLadder
    rw [ha]
    simp only [Option.getD_some]
    rw [if_neg ha0, if_neg (by simp [hbne, hsne])]
  unfold simulateFills
  rw [if_neg (by
    rw [hn, ha]
    simp only [Option.getD_some]
    simp [hp, ha0])]
  dsimp only
  rw [hens, hn]
  simp only [Option.getD_some]
  rw [buyFillLoop_no_trigger now p s.ladderBuys s hb]
  dsimp only
  rw [sellFillLoop_no_trigger now p s.ladderSells { s with ladderBuys := s.ladderBuys } hs]

end Dark

/-- C9: the paper micro-seed is a one-time extra BUY at the current market
price: `runMicroSeedOnce` is a no-op whenever any SOL is held or any
position is open, and otherwise it is exactly a `placeBuyAtPrice` attempt
at the current price for `MICRO_SEED_USD` (so it is subject to the same
cash, buy-packet and sell-packet guard checks as a normal fill); on the
first successful tick (anchor initialisation) from the start state it
executes immediately, leaving one micro-seed position bought at the fetched
market price — not at any ladder level, none of which can trigger at the
anchor price itself. -/
theorem c9_micro_seed :
    (∀ (now : ℤ) (s : Dark.DarkState), 0 < s.balances.sol →
      Dark.runMicroSeedOnce now s = s) ∧
    (∀ (now : ℤ) (s : Dark.DarkState), s.openPositions ≠ [] →
      Dark.runMicroSeedOnce now s = s) ∧
    (∀ (now : ℤ) (s : Dark.DarkState) (np a : ℚ),
      s.nowPrice = some np → s.anchor = some a →
      s.balances.sol ≤ 0 → s.openPositions = [] →
      Dark.runMicroSeedOnce now s
        = (Dark.placeBuyAtPrice now (np * (1 + Dark.SIM_SLIPPAGE_PCT))
            (some Dark.MICRO_SEED_USD) (some "MICRO_SEED") true s).2) ∧
    (∀ (p : ℚ) (src : String) (now : ℤ), 0 < p →
      (Dark.tickWith p src now Dark.startState).openPositions
        = [{ id := 1, entryPrice := p, qtySol := Dark.MICRO_SEED_USD / p,
             costUsd := Dark.MICRO_SEED_USD, openedAt := now, microSeed := true }] ∧
      (Dark.tickWith p src now Dark.startState).balances.usd
        = Dark.START_USD - Dark.MICRO_SEED_USD ∧
      (Dark.tickWith p src now Dark.startState).balances.sol
        = Dark.MICRO_SEED_USD / p) := by
  have hnoop1 : ∀ (now : ℤ) (s : Dark.DarkState), 0 < s.balances.sol →
      Dark.runMicroSeedOnce now s = s := by
    intro now s hsol
    unfold Dark.runMicroSeedOnce
    rw [if_neg (by norm_num [Dark.MICRO_SEED_USD])]
    rcases hnp : s.nowPrice with _ | np
    · cases hanc : s.anchor <;> simp only [hnp, hanc]
    · cases hanc : s.anchor
      · simp only [hnp, hanc]
      · simp only [hnp, hanc]
        rw [if_pos hsol]
  have hnoop2 : ∀ (now : ℤ) (s : Dark.DarkState), s.openPositions ≠ [] →
      Dark.runMicroSeedOnce now s = s := by
    intro now s hopen
    unfold Dark.runMicroSeedOnce
    rw [if_neg (by norm_num [Dark.MICRO_SEED_USD])]
    rcases hnp : s.nowPrice with _ | np
    · cases hanc : s.anchor <;> simp only [hnp, hanc]
    · cases hanc : s.anchor
      · simp only [hnp, hanc]
      · simp only [hnp, hanc]
        by_cases hsol : 0 < s.balances.sol
        · rw [if_pos hsol]
        · rw [if_neg hsol, if_pos hopen]
  have hattempt : ∀ (now : ℤ) (s : Dark.DarkState) (np a : ℚ),
      s.nowPrice = some np → s.anchor = some a →
      s.balances.sol ≤ 0 → s.openPositions = [] →
      Dark.runMicroSeedOnce now s
        = (Dark.placeBuyAtPrice now (np * (1 + Dark.SIM_SLIPPAGE_PCT))
            (some Dark.MICRO_SEED_USD) (some "MICRO_SEED") true s).2 := by
    intro now s np a hnp hanc hsol hopen
    unfold Dark.runMicroSeedOnce
    rw [if_neg (by norm_num [Dark.MICRO_SEED_USD])]
    simp only [hnp, hanc]
    rw [if_neg (not_lt.mpr hsol), if_neg (by simp [hopen])]
  refine ⟨hnoop1, hnoop2, hattempt, ?_⟩
  intro p src now hp
  have hp0 : p ≠ 0 := ne_of_gt hp
  unfold Dark.tickWith
  dsimp only
  rw [if_pos (by simp [Dark.startState])]
  rw [hattempt now _ p p rfl rfl (by norm_num [Dark.startState, Dark.START_SOL]) rfl]
  rw [Dark.placeBuyAtPrice_eq_accepted now (p * (1 + Dark.SIM_SLIPPAGE_PCT))
    (some Dark.MICRO_SEED_USD) (some "MICRO_SEED") true _
    (by norm_num [Dark.startState, Dark.START_USD, Dark.MICRO_SEED_USD])
    (by norm_num [Dark.openCount, Dark.startState, Dark.BUY_PACKETS])
    (by rfl)]
  rw [Dark.simulateFills_no_trigger now _ p p (by simp) hp0 (by simp) hp0
    (by
      simp only [Dark.recomputeAvgEntry_ladderBuys, Dark.recordTrade_ladderBuys]
      have := (Dark.buildLadderGen_lengths p Dark.BUY_STEP_PCT Dark.SELL_STEP_PCT
        Dark.LEVELS_EACH_SIDE).1
      intro hemp
      rw [show ((Dark.buildLadder p).1 : List Dark.Rung)
        = (Dark.buildLadderGen p Dark.BUY_STEP_PCT Dark.SELL_STEP_PCT
            Dark.LEVELS_EACH_SIDE).1 from rfl] at hemp
      rw [hemp] at this
      simp [Dark.LEVELS_EACH_SIDE] at this)
    (by
      simp only [Dark.recomputeAvgEntry_ladderSells, Dark.recordTrade_ladderSells]
      have := (Dark.buildLadderGen_lengths p Dark.BUY_STEP_PCT Dark.SELL_STEP_PCT
        Dark.LEVELS_EACH_SIDE).2
      intro hemp
      rw [show ((Dark.buildLadder p).2 : List Dark.Rung)
        = (Dark.buildLadderGen p Dark.BUY_STEP_PCT Dark.SELL_STEP_PCT
            Dark.LEVELS_EACH_SIDE).2 from rfl] at hemp
      rw [hemp] at this
      simp [Dark.LEVELS_EACH_SIDE] at this)
    (by
      intro r hr
      simp only [Dark.recomputeAvgEntry_ladderBuys, Dark.recordTrade_ladderBuys] at hr
      exact (Dark.buildLadder_buys_mem p hp r hr).2)
    (by
      intro r hr
      simp only [Dark.recomputeAvgEntry_ladderSells, Dark.recordTrade_ladderSells] at hr
      exact Dark.buildLadder_sells_mem p hp r hr)]
  refine ⟨?_, ?_, ?_⟩
  · simp only [Dark.recomputeAvgEntry_openPositions, Dark.recordTrade_openPositions]
    simp [Dark.startState, Dark.SIM_SLIPPAGE_PCT]
  · simp only [Dark.recomputeAvgEntry_balances, Dark.recordTrade_balances]
    simp [Dark.startState]
  · simp only [Dark.recomputeAvgEntry_balances, Dark.recordTrade_balances]
    simp [Dark.startState, Dark.SIM_SLIPPAGE_PCT, Dark.START_SOL]

/-- Witness for C9: no-op on a state holding SOL, and the concrete first
tick from the start state at price 2. -/
theorem c9_micro_seed_witness :
    Dark.runMicroSeedOnce 0 Dark.popState = Dark.popState ∧
    (Dark.tickWith 2 "BINANCE" 0 Dark.startState).openPositions
      = [{ id := 1, entryPrice := 2, qtySol := Dark.MICRO_SEED_USD / 2,
           costUsd := Dark.MICRO_SEED_USD, openedAt := 0, microSeed := true }] ∧
    (Dark.tickWith 2 "BINANCE" 0 Dark.startState).balances.usd
      = Dark.START_USD - Dark.MICRO_SEED_USD := by
  have h := c9_micro_seed
  have ht := h.2.2.2 2 "BINANCE" 0 (by norm_num)
  exact ⟨h.1 0 Dark.popState (by norm_num [Dark.popState]), ht.1, ht.2.1⟩

/-- C6 counterexample: at drift exactly 5% (above the 4% trigger) with
`now - lastFillAt` inside the no-fill window, `shouldReanchor` does NOT
always report the recent-fill block — when the cooldown is also active the
reason is `cooldown`, because the cooldown check precedes the recent-fill
check in the source. Concrete inputs: anchor 100, price 105, `now = 1000`,
`lastReanchorAt = 500`, `lastFillAt = 900`. -/
theorem c6_reanchor_reason_cex :
    V1.pctDiff 105 100 = 5 / 100 ∧
    ¬ ((5 : ℚ) / 100 < V1.REANCHOR_TRIGGER_PCT) ∧
    (1000 : ℤ) - 900 < V1.REANCHOR_NO_FILL_WINDOW_MS ∧
    (V1.shouldReanchor 1000 (some 105) (some 100) 500 900 0 0).ok = false ∧
    (V1.shouldReanchor 1000 (some 105) (some 100) 500 900 0 0).reason = "cooldown" ∧
    (V1.shouldReanchor 1000 (some 105) (some 100) 500 900 0 0).reason ≠ "recent_fill" := by
  refine ⟨by norm_num [V1.pctDiff], by norm_num [V1.REANCHOR_TRIGGER_PCT],
    by norm_num [V1.REANCHOR_NO_FILL_WINDOW_MS], ?_, ?_, ?_⟩
  · norm_num [V1.shouldReanchor, V1.AUTO_REANCHOR_ENABLED, V1.pctDiff,
      V1.REANCHOR_TRIGGER_PCT, V1.REANCHOR_COOLDOWN_MS, V1.REANCHOR_NO_FILL_WINDOW_MS]
  · norm_num [V1.shouldReanchor, V1.AUTO_REANCHOR_ENABLED, V1.pctDiff,
      V1.REANCHOR_TRIGGER_PCT, V1.REANCHOR_COOLDOWN_MS, V1.REANCHOR_NO_FILL_WINDOW_MS]
  · norm_num [V1.shouldReanchor, V1.AUTO_REANCHOR_ENABLED, V1.pctDiff,
      V1.REANCHOR_TRIGGER_PCT, V1.REANCHOR_COOLDOWN_MS, V1.REANCHOR_NO_FILL_WINDOW_MS]
    decide

/-- C6 (amended): when the relative drift is 5% (above the 4% trigger),
`now - lastFillAt` is inside the no-fill window AND the re-anchor cooldown
has already elapsed (the extra condition the counterexample forces, since
the cooldown guard is checked first), `shouldReanchor` returns a
non-reanchor decision whose reason is exactly `recent_fill`, not drift. -/
theorem c6_reanchor_recent_fill (now lra lfa : ℤ) (p a bu su : ℚ)
    (hp : p ≠ 0) (ha : a ≠ 0) (hd : V1.pctDiff p a = 5 / 100)
    (hcool : V1.REANCHOR_COOLDOWN_MS ≤ now - lra)
    (hfill : now - lfa < V1.REANCHOR_NO_FILL_WINDOW_MS) :
    V1.shouldReanchor now (some p) (some a) lra lfa bu su
      = { ok := false, reason := "recent_fill", drift := some (5 / 100) } := by
  unfold V1.shouldReanchor
  rw [if_neg (by norm_num [V1.AUTO_REANCHOR_ENABLED])]
  simp only [Option.getD_some]
  rw [if_neg ha, if_neg hp, hd,
    if_neg (by norm_num [V1.REANCHOR_TRIGGER_PCT]),
    if_neg (not_lt.mpr hcool), if_pos hfill]

/-- Witness for C6 (amended) at concrete inputs: price 105, anchor 100,
`now = 10^7`, `lastReanchorAt = 0`, `lastFillAt = 10^7 - 1`. -/
theorem c6_reanchor_recent_fill_witness :
    V1.shouldReanchor 10000000 (some 105) (some 100) 0 9999999 (1 / 2) (1 / 2)
      = { ok := false, reason := "recent_fill", drift := some (5 / 100) } :=
  c6_reanchor_recent_fill 10000000 0 9999999 105 100 (1 / 2) (1 / 2)
    (by norm_num) (by norm_num) (by norm_num [V1.pctDiff])
    (by norm_num [V1.REANCHOR_COOLDOWN_MS])
    (by norm_num [V1.REANCHOR_NO_FILL_WINDOW_MS])

/-- C8 counterexample: the snapshot round trip is NOT exact for the first
variant's `saveState`/`loadState` pair (runPaper.js lines 126-166), which
the claim also covers: loading the snapshot saved from the populated state
`V1.popState` (with `lastPrice = 101`, `lastPriceSource = "JUP"`) over a
freshly booted process yields a state whose `lastPrice` and
`lastPriceSource` are the boot defaults — those two saved fields are never
restored, so `load(save(s)) ≠ s`. -/
theorem c8_roundtrip_cex :
    V1.popState.lastPrice = some 101 ∧
    V1.popState.lastPriceSource = "JUP" ∧
    (V1.loadState (V1.saveState 0 V1.popState) V1.bootState).lastPrice = none ∧
    (V1.loadState (V1.saveState 0 V1.popState) V1.bootState).lastPriceSource = "N/A" ∧
    V1.loadState (V1.saveState 0 V1.popState) V1.bootState ≠ V1.popState := by
  refine ⟨rfl, rfl, rfl, rfl, ?_⟩
  intro h
  have := congrArg V1.V1State.lastPrice h
  simp [V1.loadState, V1.saveState, V1.popState, V1.bootState] at this

/-- C8 (amended): the dark-ladder variant's snapshot round-trips exactly —
for every populated state (anchor and current price present)
`loadState (saveState s) prev = s` whatever the prior in-memory state —
while in the first variant every field round-trips EXCEPT `lastPrice` and
`lastPriceSource`, which are saved but never restored (they keep the prior
state's values). -/
theorem c8_roundtrip_amended :
    (∀ (s prev : Dark.DarkState) (now : ℤ), s.anchor ≠ none → s.nowPrice ≠ none →
      Dark.loadState (Dark.saveState now s) prev = s) ∧
    (∀ (s prev : V1.V1State) (now : ℤ), s.anchorPrice ≠ none →
      (V1.loadState (V1.saveState now s) prev).anchorPrice = s.anchorPrice ∧
      (V1.loadState (V1.saveState now s) prev).lastReanchorAt = s.lastReanchorAt ∧
      (V1.loadState (V1.saveState now s) prev).lastFillAt = s.lastFillAt ∧
      (V1.loadState (V1.saveState now s) prev).openOrders = s.openOrders ∧
      (V1.loadState (V1.saveState now s) prev).nextOrderId = s.nextOrderId ∧
      (V1.loadState (V1.saveState now s) prev).balances = s.balances ∧
      (V1.loadState (V1.saveState now s) prev).stats = s.stats ∧
      (V1.loadState (V1.saveState now s) prev).lastPrice = prev.lastPrice ∧
      (V1.loadState (V1.saveState now s) prev).lastPriceSource = prev.lastPriceSource) := by
  constructor
  · intro s prev now hanc hnp
    rcases ha : s.anchor with _ | a
    · exact absurd ha hanc
    · rcases hn : s.nowPrice with _ | np
      · exact absurd hn hnp
      · unfold Dark.loadState Dark.saveState
        simp only [ha, hn]
        cases s
        simp_all
  · intro s prev now hanc
    rcases ha : s.anchorPrice with _ | a
    · exact absurd ha hanc
    · unfold V1.loadState V1.saveState
      simp [ha]

/-- Witness for C8 (amended) on the populated dark state and the populated
first-variant state, each loaded over the respective boot state. -/
theorem c8_roundtrip_amended_witness :
    Dark.loadState (Dark.saveState 77 Dark.popState) Dark.startState = Dark.popState ∧
    (V1.loadState (V1.saveState 77 V1.popState) V1.bootState).balances
      = V1.popState.balances ∧
    (V1.loadState (V1.saveState 77 V1.popState) V1.bootState).lastPrice
      = V1.bootState.lastPrice := by
  have h1 := c8_roundtrip_amended.1 Dark.popState Dark.startState 77
    (by simp [Dark.popState]) (by simp [Dark.popState])
  have h2 := c8_roundtrip_amended.2 V1.popState V1.bootState 77 (by simp [V1.popState])
  exact ⟨h1, h2.2.2.2.2.2.1, h2.2.2.2.2.2.2.2.1⟩

namespace FS

/-- Buy-loop equation: level not triggered (wrong state or price above). -/
theorem buysLoop_cons_nocond (p : ℚ) (now : ℤ) (lvl : ℚ) (rest : List ℚ) (s : FState)
    (h : ¬ ((lookupD s.levelStates (LSide.B, lvl) LvlState.WAIT = LvlState.HIT ∨
             lookupD s.levelStates (LSide.B, lvl) LvlState.WAIT = LvlState.WAIT) ∧
            p ≤ lvl)) :
    buysLoop p now (lvl :: rest) s = buysLoop p now rest s := by
  rw [buysLoop]
  dsimp only
  rw [if_neg h]

/-- Buy-loop equation: triggered level that already holds a position is
re-marked `FILLED` and skipped. -/
theorem buysLoop_cons_haspos (p : ℚ) (now : ℤ) (lvl : ℚ) (rest : List ℚ) (s : FState)
    (h : (lookupD s.levelStates (LSide.B, lvl) LvlState.WAIT = LvlState.HIT ∨
          lookupD s.levelStates (LSide.B, lvl) LvlState.WAIT = LvlState.WAIT) ∧
         p ≤ lvl)
    (hpos : (lookupA s.positions (LSide.B, lvl)).isSome = true) :
    buysLoop p now (lvl :: rest) s
      = buysLoop p now rest
          { s with levelStates := setA s.levelStates (LSide.B, lvl) LvlState.FILLED } := by
  rw [buysLoop]
  dsimp only
  rw [if_pos h, if_pos hpos]

/-- Buy-loop equation: the sell-packet guard trips — the level is marked
`HIT`, the error is recorded and the whole pass returns. -/
theorem buysLoop_cons_guard (p : ℚ) (now : ℤ) (lvl : ℚ) (rest : List ℚ) (s : FState)
    (h : (lookupD s.levelStates (LSide.B, lvl) LvlState.WAIT = LvlState.HIT ∨
          lookupD s.levelStates (LSide.B, lvl) LvlState.WAIT = LvlState.WAIT) ∧
         p ≤ lvl)
    (hpos : ¬ (lookupA s.positions (LSide.B, lvl)).isSome = true)
    (hg : canPlaceAnotherBuy s = false) :
    buysLoop p now (lvl :: rest) s
      = { s with levelStates := setA s.levelStates (LSide.B, lvl) LvlState.HIT,
                 lastError := some "BUY_BLOCKED: sell packets exhausted" } := by
  rw [buysLoop]
  dsimp only
  rw [if_pos h, if_neg hpos, if_pos hg]

/-- Buy-loop equation: cash is short — the level is skipped and the pass
continues on the next (farther) level. -/
theorem buysLoop_cons_nocash (p : ℚ) (now : ℤ) (lvl : ℚ) (rest : List ℚ) (s : FState)
    (h : (lookupD s.levelStates (LSide.B, lvl) LvlState.WAIT = LvlState.HIT ∨
          lookupD s.levelStates (LSide.B, lvl) LvlState.WAIT = LvlState.WAIT) ∧
         p ≤ lvl)
    (hpos : ¬ (lookupA s.positions (LSide.B, lvl)).isSome = true)
    (hg : ¬ canPlaceAnotherBuy s = false)
    (hcash : s.usdc < USD_PER_BUY) :
    buysLoop p now (lvl :: rest) s = buysLoop p now rest s := by
  rw [buysLoop]
  dsimp only
  rw [if_pos h, if_neg hpos, if_neg hg, if_pos hcash]

/-- Buy-loop equation: the purchase branch. -/
theorem buysLoop_cons_buy (p : ℚ) (now : ℤ) (lvl : ℚ) (rest : List ℚ) (s : FState)
    (h : (lookupD s.levelStates (LSide.B, lvl) LvlState.WAIT = LvlState.HIT ∨
          lookupD s.levelStates (LSide.B, lvl) LvlState.WAIT = LvlState.WAIT) ∧
         p ≤ lvl)
    (hpos : ¬ (lookupA s.positions (LSide.B, lvl)).isSome = true)
    (hg : ¬ canPlaceAnotherBuy s = false)
    (hcash : ¬ s.usdc < USD_PER_BUY) :
    buysLoop p now (lvl :: rest) s
      = buysLoop p now rest
          { s with usdc := round2 (s.usdc - USD_PER_BUY),
                   sol := s.sol + USD_PER_BUY / p,
                   positions := setA s.positions (LSide.B, lvl)
                     { qtySol := USD_PER_BUY / p, entryPrice := p, openedAt := now },
                   levelStates := setA s.levelStates (LSide.B, lvl) LvlState.FILLED,
                   trades := clampTrades (s.trades ++
                     [{ side := Side.BUY, level := lvl, price := round2 p,
                        qtySol := USD_PER_BUY / p, pnl := 0, tsAt := now }]),
                   lastError := none } := by
  rw [buysLoop]
  dsimp only
  rw [if_pos h, if_neg hpos, if_neg hg, if_neg hcash]

/-- `canPlaceAnotherBuy` only depends on the trade log and the sell
capacity. -/
theorem canPlaceAnotherBuy_congr (s t : FState)
    (ht : t.trades = s.trades) (hc : t.sellCapacity = s.sellCapacity) :
    canPlaceAnotherBuy t = canPlaceAnotherBuy s := by
  unfold canPlaceAnotherBuy statsOpenPositions buysFilled sellsFilled
  rw [ht, hc]

/-- When the sell-packet guard blocks, or cash is below the per-level
notional, the whole buy loop makes no purchase: balances, positions and the
trade log are untouched (only level display states and `lastError` may
change). -/
theorem buysLoop_no_purchase (p : ℚ) (now : ℤ) (lvls : List ℚ) (s : FState)
    (hblock : canPlaceAnotherBuy s = false ∨ s.usdc < USD_PER_BUY) :
    (buysLoop p now lvls s).usdc = s.usdc ∧
    (buysLoop p now lvls s).sol = s.sol ∧
    (buysLoop p now lvls s).positions = s.positions ∧
    (buysLoop p now lvls s).trades = s.trades := by
  induction lvls generalizing s with
  | nil => exact ⟨rfl, rfl, rfl, rfl⟩
  | cons lvl rest ih =>
    by_cases hcond : (lookupD s.levelStates (LSide.B, lvl) LvlState.WAIT = LvlState.HIT ∨
        lookupD s.levelStates (LSide.B, lvl) LvlState.WAIT = LvlState.WAIT) ∧ p ≤ lvl
    · by_cases hpos : (lookupA s.positions (LSide.B, lvl)).isSome = true
      · rw [buysLoop_cons_haspos p now lvl rest s hcond hpos]
        have hcg := canPlaceAnotherBuy_congr s
          { s with levelStates := setA s.levelStates (LSide.B, lvl) LvlState.FILLED } rfl rfl
        refine ih _ ?_
        rw [hcg]
        exact hblock
      · by_cases hg : canPlaceAnotherBuy s = false
        · rw [buysLoop_cons_guard p now lvl rest s hcond hpos hg]
          exact ⟨rfl, rfl, rfl, rfl⟩
        · by_cases hcash : s.usdc < USD_PER_BUY
          · rw [buysLoop_cons_nocash p now lvl rest s hcond hpos hg hcash]
            exact ih s hblock
          · rcases hblock with hblock | hblock
            · exact absurd hblock hg
            · exact absurd hblock hcash
    · rw [buysLoop_cons_nocond p now lvl rest s hcond]
      exact ih s hblock

/-- The same at the level of `tryExecuteBuys`. -/
theorem tryExecuteBuys_no_purchase (p : ℚ) (now : ℤ) (s : FState)
    (hblock : canPlaceAnotherBuy s = false ∨ s.usdc < USD_PER_BUY) :
    (tryExecuteBuys p now s).usdc = s.usdc ∧
    (tryExecuteBuys p now s).sol = s.sol ∧
    (tryExecuteBuys p now s).positions = s.positions ∧
    (tryExecuteBuys p now s).trades = s.trades := by
  unfold tryExecuteBuys
  rcases ha : s.anchor with _ | a
  · exact ⟨rfl, rfl, rfl, rfl⟩
  · exact buysLoop_no_purchase p now (buildLevels s a).2 s hblock

end FS

/-- C3 counterexample: in the fixed-step variant's `tryExecuteBuys`, a cash
rejection does NOT stop the BUY pass.  On the loadable state `FS.cexState`
(anchor 100, step 0.50, two buy levels 99.50 and 99.00, price 98, cash 10 <
25) the nearest level 99.50 is `WAIT`, qualifies (98 ≤ 99.50), holds no
position and passes the packet guard, so it is rejected for cash — yet
after the pass the farther level 99.00 has been marked `FILLED` (through
the already-held-position branch), so the pass evaluated and changed a
farther level instead of stopping entirely at the rejected one. -/
theorem c3_buy_pass_stop_cex :
    FS.cexState.usdc < FS.USD_PER_BUY ∧
    FS.cexState.anchor = some 100 ∧
    (FS.buildLevels FS.cexState 100).2 = [199 / 2, 99] ∧
    lookupD FS.cexState.levelStates (FS.LSide.B, 199 / 2) FS.LvlState.WAIT
      = FS.LvlState.WAIT ∧
    ((98 : ℚ) ≤ 199 / 2) ∧
    lookupA FS.cexState.positions (FS.LSide.B, 199 / 2) = none ∧
    FS.canPlaceAnotherBuy FS.cexState = true ∧
    lookupD (FS.tryExecuteBuys 98 0 FS.cexState).levelStates (FS.LSide.B, 199 / 2)
      FS.LvlState.WAIT = FS.LvlState.WAIT ∧
    lookupD (FS.tryExecuteBuys 98 0 FS.cexState).levelStates (FS.LSide.B, 99)
      FS.LvlState.WAIT = FS.LvlState.FILLED := by
  refine ⟨by norm_num [FS.cexState, FS.USD_PER_BUY], rfl,
    by norm_num [FS.buildLevels, FS.cexState, round2, List.range_succ], rfl,
    by norm_num, by norm_num [FS.cexState, lookupA], rfl, ?_, ?_⟩ <;>
  · norm_num [FS.tryExecuteBuys, FS.cexState, FS.buildLevels, round2, List.range_succ,
      FS.buysLoop, lookupD, lookupA, setA, FS.canPlaceAnotherBuy, FS.statsOpenPositions,
      FS.buysFilled, FS.sellsFilled, FS.USD_PER_BUY, Prod.ext_iff]

/-- C3 (amended): (i) in the pct-ladder variant's `simulateFills` BUY pass,
a rejected fill attempt on a triggered non-`FILLED` rung (for cash, buy
packets or the sell-packet guard, all inside `placeBuyAtPrice`) halts the
pass entirely: the rung is not marked `FILLED`, no farther rung is touched
and the engine state is unchanged; (ii) in the fixed-step variant's
`tryExecuteBuys`, a sell-packet guard rejection makes no purchase anywhere
in the pass, and (iii) a cash rejection likewise leads to no purchase in
the rest of the pass — balances, positions and trades are untouched — but
the pass does continue scanning farther levels, whose display state can
still change (see the counterexample), contrary to the claim's
stop-entirely wording for that variant. -/
theorem c3_buy_pass_stop_amended :
    (∀ (now : ℤ) (p : ℚ) (r : Dark.Rung) (rest : List Dark.Rung) (s : Dark.DarkState),
      r.state ≠ Dark.RungState.FILLED → p ≤ r.price →
      (Dark.placeBuyAtPrice now (r.price * (1 + Dark.SIM_SLIPPAGE_PCT))
        none none false s).1 = false →
      Dark.buyFillLoop now p (r :: rest) s = (r :: rest, s)) ∧
    (∀ (p : ℚ) (now : ℤ) (s : FS.FState), FS.canPlaceAnotherBuy s = false →
      (FS.tryExecuteBuys p now s).usdc = s.usdc ∧
      (FS.tryExecuteBuys p now s).sol = s.sol ∧
      (FS.tryExecuteBuys p now s).positions = s.positions ∧
      (FS.tryExecuteBuys p now s).trades = s.trades) ∧
    (∀ (p : ℚ) (now : ℤ) (s : FS.FState), s.usdc < FS.USD_PER_BUY →
      (FS.tryExecuteBuys p now s).usdc = s.usdc ∧
      (FS.tryExecuteBuys p now s).sol = s.sol ∧
      (FS.tryExecuteBuys p now s).positions = s.positions ∧
      (FS.tryExecuteBuys p now s).trades = s.trades) := by
  refine ⟨?_, ?_, ?_⟩
  · intro now p r rest s h1 h2 h3
    rw [Dark.buyFillLoop_cons_fail now p r rest s h1 h2 h3,
      Dark.placeBuyAtPrice_rejected now (r.price * (1 + Dark.SIM_SLIPPAGE_PCT))
        none none false s h3]
  · intro p now s hg
    exact FS.tryExecuteBuys_no_purchase p now s (Or.inl hg)
  · intro p now s hcash
    exact FS.tryExecuteBuys_no_purchase p now s (Or.inr hcash)

/-- Witness for C3 (amended): a cash-rejected rung halts the pct-ladder
pass from a zero-cash state; a guard-blocked fixed-step pass (sell capacity
zero) and a cash-short fixed-step pass each make no purchase. -/
theorem c3_buy_pass_stop_amended_witness :
    Dark.buyFillLoop 0 40
      [{ price := 50, state := Dark.RungState.WAIT },
       { price := 49, state := Dark.RungState.WAIT }]
      { Dark.startState with balances := { usd := 0, sol := 0 } }
      = ([{ price := 50, state := Dark.RungState.WAIT },
          { price := 49, state := Dark.RungState.WAIT }],
         { Dark.startState with balances := { usd := 0, sol := 0 } }) ∧
    (FS.tryExecuteBuys 98 0 { FS.cexState with sellCapacity := 0 }).positions
      = ({ FS.cexState with sellCapacity := 0 } : FS.FState).positions ∧
    (FS.tryExecuteBuys 98 0 FS.cexState).usdc = FS.cexState.usdc := by
  have h := c3_buy_pass_stop_amended
  refine ⟨?_, ?_, ?_⟩
  · exact h.1 0 40 { price := 50, state := Dark.RungState.WAIT }
      [{ price := 49, state := Dark.RungState.WAIT }]
      { Dark.startState with balances := { usd := 0, sol := 0 } }
      (by simp) (by norm_num)
      (by norm_num [Dark.placeBuyAtPrice, Dark.ORDER_NOTIONAL_USD])
  · exact (h.2.1 98 0 { FS.cexState with sellCapacity := 0 } (by rfl)).2.2.1
  · exact (h.2.2 98 0 FS.cexState (by norm_num [FS.cexState, FS.USD_PER_BUY])).1

namespace FS

/-- `sellAgainstOldest` closes at most one position, and when it does, the
position is sold at the market price `p` and only `(S, sellLevel)` is newly
marked `FILLED`. -/
theorem sellAgainstOldest_spec (p : ℚ) (now : ℤ) (m : ℚ) (t : FState) :
    t.positions.length ≤ (sellAgainstOldest p now m t).positions.length + 1 ∧
    ((sellAgainstOldest p now m t).positions = t.positions ∧
     (sellAgainstOldest p now m t).usdc = t.usdc ∧
     (sellAgainstOldest p now m t).sol = t.sol ∧
     (sellAgainstOldest p now m t).realizedPnl = t.realizedPnl ∨
     ∃ (k : LKey) (pos : FPos),
       lookupA t.positions k = some pos ∧
       (sellAgainstOldest p now m t).positions = eraseA t.positions k ∧
       (sellAgainstOldest p now m t).usdc = round2 (t.usdc + pos.qtySol * p) ∧
       (sellAgainstOldest p now m t).sol = t.sol - pos.qtySol ∧
       (sellAgainstOldest p now m t).realizedPnl
         = round2 (t.realizedPnl + (p - pos.entryPrice) * pos.qtySol)) ∧
    (∀ k : LKey,
      lookupD (sellAgainstOldest p now m t).levelStates k LvlState.WAIT
        = LvlState.FILLED →
      lookupD t.levelStates k LvlState.WAIT = LvlState.FILLED ∨ k = (LSide.S, m)) := by
  unfold sellAgainstOldest
  split
  · exact ⟨Nat.le_succ _, Or.inl ⟨rfl, rfl, rfl, rfl⟩, fun k hk => Or.inl hk⟩
  · rename_i pk pks heq
    dsimp only
    split
    · exact ⟨Nat.le_succ _, Or.inl ⟨rfl, rfl, rfl, rfl⟩, fun k hk => Or.inl hk⟩
    · rename_i pos hlk
      split_ifs with hsol
      · exact ⟨Nat.le_succ _, Or.inl ⟨rfl, rfl, rfl, rfl⟩, fun k hk => Or.inl hk⟩
      · refine ⟨?_, ?_, ?_⟩
        · exact eraseA_length_le t.positions _
        · exact Or.inr ⟨_, pos, hlk, rfl, rfl, rfl, rfl⟩
        · intro k hk
          by_cases hkm : k = (LSide.S, m)
          · exact Or.inr hkm
          · left
            have hset := lookupD_setA t.levelStates (LSide.S, m) k LvlState.FILLED
              LvlState.WAIT
            rw [hset, if_neg hkm] at hk
            exact hk

end FS

/-- C10: in the fixed-step variant, one call to `tryExecuteSells` closes at
most one position — even when the current price has crossed several sell
levels — and when a position is closed it is sold at the current market
price `p` (proceeds `qtySol * p`, PnL `(p - entry) * qtySol`), not at the
sell level's price; moreover the only sell level that can newly become
`FILLED` is the single lowest reached one,
`min { lv ∈ sells | lv ≤ p }`. -/
theorem c10_sell_one_per_tick (s : FS.FState) (p : ℚ) (now : ℤ) (a : ℚ)
    (ha : s.anchor = some a) :
    s.positions.length ≤ (FS.tryExecuteSells p now s).positions.length + 1 ∧
    ((FS.tryExecuteSells p now s).positions = s.positions ∧
     (FS.tryExecuteSells p now s).usdc = s.usdc ∧
     (FS.tryExecuteSells p now s).sol = s.sol ∧
     (FS.tryExecuteSells p now s).realizedPnl = s.realizedPnl ∨
     ∃ (k : FS.LKey) (pos : FS.FPos),
       lookupA s.positions k = some pos ∧
       (FS.tryExecuteSells p now s).positions = eraseA s.positions k ∧
       (FS.tryExecuteSells p now s).usdc = round2 (s.usdc + pos.qtySol * p) ∧
       (FS.tryExecuteSells p now s).sol = s.sol - pos.qtySol ∧
       (FS.tryExecuteSells p now s).realizedPnl
         = round2 (s.realizedPnl + (p - pos.entryPrice) * pos.qtySol)) ∧
    (∀ k : FS.LKey,
      lookupD (FS.tryExecuteSells p now s).levelStates k FS.LvlState.WAIT
        = FS.LvlState.FILLED →
      lookupD s.levelStates k FS.LvlState.WAIT = FS.LvlState.FILLED ∨
      (k.1 = FS.LSide.S ∧
       listMin? (((FS.buildLevels s a).1).filter (fun lv => lv ≤ p)) = some k.2)) := by
  unfold FS.tryExecuteSells
  split
  · exact ⟨Nat.le_succ _, Or.inl ⟨rfl, rfl, rfl, rfl⟩, fun k hk => Or.inl hk⟩
  rename_i a' heq
  obtain rfl : a = a' := by
    rw [ha] at heq
    exact (Option.some.injEq a a').mp heq
  dsimp only
  split
  · exact ⟨Nat.le_succ _, Or.inl ⟨rfl, rfl, rfl, rfl⟩, fun k hk => Or.inl hk⟩
  · rename_i m hmin
    by_cases hws : lookupD s.levelStates (FS.LSide.S, m) FS.LvlState.WAIT
        = FS.LvlState.WAIT
    · rw [if_pos hws]
      obtain ⟨h1, h2, h3⟩ := FS.sellAgainstOldest_spec p now m
        { s with levelStates := setA s.levelStates (FS.LSide.S, m) FS.LvlState.HIT }
      refine ⟨h1, h2, ?_⟩
      intro k hk
      rcases h3 k hk with h | h
      · have hset := lookupD_setA s.levelStates (FS.LSide.S, m) k FS.LvlState.HIT
          FS.LvlState.WAIT
        rw [show lookupD ({ s with
            levelStates := setA s.levelStates (FS.LSide.S, m) FS.LvlState.HIT
          } : FS.FState).levelStates k FS.LvlState.WAIT
          = lookupD (setA s.levelStates (FS.LSide.S, m) FS.LvlState.HIT) k
              FS.LvlState.WAIT from rfl, hset] at h
        by_cases hkm : k = (FS.LSide.S, m)
        · rw [if_pos hkm] at h
          exact absurd h (by simp)
        · rw [if_neg hkm] at h
          exact Or.inl h
      · refine Or.inr ⟨by rw [h], ?_⟩
        rw [h]
        exact hmin
    · rw [if_neg hws]
      obtain ⟨h1, h2, h3⟩ := FS.sellAgainstOldest_spec p now m s
      refine ⟨h1, h2, ?_⟩
      intro k hk
      rcases h3 k hk with h | h
      · exact Or.inl h
      · refine Or.inr ⟨by rw [h], ?_⟩
        rw [h]
        exact hmin

/-- Witness for C10 on a concrete state: anchor 100, step 0.50, one open
position, price 101 crossing both sell levels 100.50 and 101.00. -/
theorem c10_sell_one_per_tick_witness :
    FS.sellWState.positions.length
      ≤ (FS.tryExecuteSells 101 5 FS.sellWState).positions.length + 1 ∧
    (∀ k : FS.LKey,
      lookupD (FS.tryExecuteSells 101 5 FS.sellWState).levelStates k FS.LvlState.WAIT
        = FS.LvlState.FILLED →
      lookupD FS.sellWState.levelStates k FS.LvlState.WAIT = FS.LvlState.FILLED ∨
      (k.1 = FS.LSide.S ∧
       listMin? (((FS.buildLevels FS.sellWState 100).1).filter (fun lv => lv ≤ 101))
         = some k.2)) := by
  have h := c10_sell_one_per_tick FS.sellWState 101 5 100 rfl
  exact ⟨h.1, h.2.2⟩
